import Mathlib

/-!
# Authentication core of go-api-boilerplate

A shallow embedding of the session gate of the repository:

* `internal/domain/errors`            : the sentinel error values,
* `internal/domain/entity/user.go`    : the identity record,
* `internal/application/service/auth_service.go` : `Login`, `ValidateToken`, `RefreshToken`,
* `internal/interfaces/http/middleware/auth_middleware.go` : `Authenticate`, `RequireRole`.

Go values are embedded as follows.

* A Go `error` is an `Option Err` (`none` is `nil`).  Comparison with `==` on errors is
  identity of the error value; it is embedded as equality on `Err`, where a package-level
  variable is a `sentinel` and a value built by wrapping (`fmt.Errorf` with `%w`) is a
  `wrapped` chain, which is never identical to a sentinel.
* A Go pointer is an `Option`; dereferencing `nil` is the outcome `Result.nilDeref`.
* `time.Time` is a number of nanoseconds since the Unix epoch, `time.Duration` a number of
  nanoseconds.  Every reading of `time.Now()` is an explicit argument.
* The external packages (`crypto/hmac` behind `jwt.SigningMethodHMAC`, the base64/JSON wire
  codec of `golang-jwt/jwt/v5`, `bcrypt`) are the fields of `Lib`; the verification sequence
  of `jwt.Parse` itself is embedded in `jwt.Parse` below.
-/

set_option autoImplicit false
set_option maxRecDepth 8000

/-! ## Go errors -/

/-- Package-level error variables: those of `internal/domain/errors` and those of
`golang-jwt/jwt/v5` that the parser and the validator use. -/
inductive Sentinel
  | ErrNotFound
  | ErrInvalidInput
  | ErrUnauthorized
  | ErrForbidden
  | ErrInternalServer
  | ErrConflict
  | ErrValidation
  | ErrBadRequest
  | ErrInvalidToken
  | ErrTokenExpired
  | ErrInvalidCredential
  | ErrUserNotFound
  | ErrUserAlreadyExists
  | ErrInvalidPassword
  | ErrInvalidEmail
  | ErrInvalidRole
  | jwtErrTokenMalformed
  | jwtErrTokenUnverifiable
  | jwtErrTokenSignatureInvalid
  | jwtErrTokenExpired
  | jwtErrTokenNotValidYet
  | jwtErrTokenInvalidClaims
  | jwtErrInvalidType
  | jwtErrInvalidKeyType
  | jwtErrSignatureInvalid
  deriving DecidableEq, Repr

/-- A Go error value.  `sentinel s` is the package-level variable `s` itself; `wrapped chain`
is a fresh value that wraps the listed sentinels (what `errors.Is` can find in it); `other`
is any other error (a bcrypt or database driver error). -/
inductive Err
  | sentinel (s : Sentinel)
  | wrapped (chain : List Sentinel)
  | other (msg : String)
  deriving DecidableEq, Repr

/-- The text of `errors.New` for each sentinel. -/
def Sentinel.Error : Sentinel → String
  | .ErrNotFound => "resource not found"
  | .ErrInvalidInput => "invalid input"
  | .ErrUnauthorized => "unauthorized"
  | .ErrForbidden => "forbidden"
  | .ErrInternalServer => "internal server error"
  | .ErrConflict => "resource already exists"
  | .ErrValidation => "validation error"
  | .ErrBadRequest => "bad request"
  | .ErrInvalidToken => "invalid token"
  | .ErrTokenExpired => "token expired"
  | .ErrInvalidCredential => "invalid credentials"
  | .ErrUserNotFound => "user not found"
  | .ErrUserAlreadyExists => "user already exists"
  | .ErrInvalidPassword => "invalid password"
  | .ErrInvalidEmail => "invalid email"
  | .ErrInvalidRole => "invalid role"
  | .jwtErrTokenMalformed => "token is malformed"
  | .jwtErrTokenUnverifiable => "token is unverifiable"
  | .jwtErrTokenSignatureInvalid => "token signature is invalid"
  | .jwtErrTokenExpired => "token is expired"
  | .jwtErrTokenNotValidYet => "token is not valid yet"
  | .jwtErrTokenInvalidClaims => "token has invalid claims"
  | .jwtErrInvalidType => "invalid type for claim"
  | .jwtErrInvalidKeyType => "key is of invalid type"
  | .jwtErrSignatureInvalid => "signature is invalid"

/-- The method `Error()` of an error value. -/
def Err.Error : Err → String
  | .sentinel s => s.Error
  | .wrapped chain => ": ".intercalate (chain.map Sentinel.Error)
  | .other msg => msg

namespace errors

def ErrNotFound : Err := .sentinel .ErrNotFound
def ErrInvalidInput : Err := .sentinel .ErrInvalidInput
def ErrUnauthorized : Err := .sentinel .ErrUnauthorized
def ErrForbidden : Err := .sentinel .ErrForbidden
def ErrInternalServer : Err := .sentinel .ErrInternalServer
def ErrConflict : Err := .sentinel .ErrConflict
def ErrValidation : Err := .sentinel .ErrValidation
def ErrBadRequest : Err := .sentinel .ErrBadRequest
def ErrInvalidToken : Err := .sentinel .ErrInvalidToken
def ErrTokenExpired : Err := .sentinel .ErrTokenExpired
def ErrInvalidCredential : Err := .sentinel .ErrInvalidCredential
def ErrUserNotFound : Err := .sentinel .ErrUserNotFound
def ErrUserAlreadyExists : Err := .sentinel .ErrUserAlreadyExists
def ErrInvalidPassword : Err := .sentinel .ErrInvalidPassword
def ErrInvalidEmail : Err := .sentinel .ErrInvalidEmail
def ErrInvalidRole : Err := .sentinel .ErrInvalidRole

/-- The structure of error responses. -/
structure ErrorResponse where
  Code : Nat
  Message : String
  deriving DecidableEq, Repr

/-- The constructor `NewErrorResponse`. -/
def NewErrorResponse (code : Nat) (message : String) : ErrorResponse :=
  { Code := code, Message := message }

end errors

/-- Outcome of a Go call that returns `(α, error)`: either the pair is returned, or the call
stops in the run-time failure of a nil pointer dereference. -/
inductive Result (α : Type)
  | ret (val : α) (err : Option Err)
  | nilDeref
  deriving DecidableEq, Repr

/-! ## Time -/

/-- A `time.Time`, in nanoseconds since the Unix epoch. -/
abbrev Time := Int

/-- A `time.Duration`, in nanoseconds. -/
abbrev Duration := Int

/-- The method `Time.Add`. -/
def Time.Add (t : Time) (d : Duration) : Time := t + d

/-- The method `Time.Unix`: whole seconds since the epoch, rounded down. -/
def Time.Unix (t : Time) : Int := t / 1000000000

/-- The function `time.Unix(sec, 0)`. -/
def Time.ofUnix (sec : Int) : Time := sec * 1000000000

/-- The method `Time.Before`. -/
def Time.Before (t u : Time) : Bool := decide (t < u)

/-! ## Configuration (`internal/infrastructure/config`) -/

namespace config

structure JWTConfig where
  Secret : String
  ExpirationHours : Duration
  RefreshDuration : Duration
  SigningAlgorithm : String
  deriving DecidableEq, Repr

structure CorsConfig where
  AllowedOrigins : List String
  AllowedMethods : List String
  AllowedHeaders : List String
  ExposedHeaders : List String
  AllowCredentials : Bool
  MaxAge : Int
  deriving DecidableEq, Repr

structure Config where
  Environment : String
  JWT : JWTConfig
  Cors : CorsConfig
  deriving DecidableEq, Repr

/-- One hour, as a `time.Duration`. -/
def Hour : Duration := 3600 * 1000000000

/-- The values `Load` returns (the fields embedded here); `Environment` is not set by it. -/
def Load : Config :=
  { Environment := ""
    JWT :=
      { Secret := "your-secret-key"
        ExpirationHours := 24 * Hour
        RefreshDuration := 168 * Hour
        SigningAlgorithm := "HS256" }
    Cors :=
      { AllowedOrigins := ["*"]
        AllowedMethods := ["GET", "POST", "PUT", "DELETE", "OPTIONS"]
        AllowedHeaders := ["Accept", "Authorization", "Content-Type", "X-CSRF-Token"]
        ExposedHeaders := ["Link"]
        AllowCredentials := true
        MaxAge := 300 } }

end config

/-! ## External packages

The packages below are not part of the repository.  Their primitives (MAC, wire codec,
password derivation) are the fields of `Lib`; the control flow of `golang-jwt/jwt/v5`
around them is written out. -/

namespace jwt

/-- A claim value: what `encoding/json` puts behind `interface{}`.  Numbers are restricted to
the integers (an `int64` before encoding, an integral `float64` after decoding). -/
inductive ClaimValue
  | str (s : String)
  | num (n : Int)
  | bool (b : Bool)
  | null
  | composite (json : String)
  deriving DecidableEq, Repr

/-- The type `jwt.MapClaims`, a `map[string]interface{}`, as an association list. -/
abbrev MapClaims := List (String × ClaimValue)

/-- The index expression `claims[key]`: the nil interface when the key is absent. -/
def MapClaims.index (m : MapClaims) (key : String) : ClaimValue :=
  (m.lookup key).getD .null

/-- The type assertion `v.(string)`. -/
def ClaimValue.asString : ClaimValue → Option String
  | .str s => some s
  | _ => none

/-- The interface `jwt.Claims`: a `MapClaims` or some other implementation. -/
inductive Claims
  | map (m : MapClaims)
  | registered (json : String)
  deriving DecidableEq, Repr

/-- The type assertion `c.(jwt.MapClaims)`. -/
def Claims.asMapClaims : Claims → Option MapClaims
  | .map m => some m
  | .registered _ => none

inductive Hash
  | SHA256
  | SHA384
  | SHA512
  deriving DecidableEq, Repr

/-- The registered signing methods: `*SigningMethodHMAC` values, the asymmetric ones, and
the `none` method. -/
inductive SigningMethod
  | HMAC (hash : Hash)
  | asymmetric (alg : String)
  | unsecured
  deriving DecidableEq, Repr

def SigningMethodHS256 : SigningMethod := .HMAC .SHA256
def SigningMethodHS384 : SigningMethod := .HMAC .SHA384
def SigningMethodHS512 : SigningMethod := .HMAC .SHA512

/-- The method `Alg()`. -/
def SigningMethod.Alg : SigningMethod → String
  | .HMAC .SHA256 => "HS256"
  | .HMAC .SHA384 => "HS384"
  | .HMAC .SHA512 => "HS512"
  | .asymmetric alg => alg
  | .unsecured => "none"

/-- The lookup `GetSigningMethod` in the table of registered methods. -/
def GetSigningMethod (alg : String) : Option SigningMethod :=
  if alg = "HS256" then some SigningMethodHS256
  else if alg = "HS384" then some SigningMethodHS384
  else if alg = "HS512" then some SigningMethodHS512
  else if alg = "none" then some .unsecured
  else if alg ∈ ["RS256", "RS384", "RS512", "PS256", "PS384", "PS512",
      "ES256", "ES384", "ES512", "EdDSA"] then some (.asymmetric alg)
  else none

/-- The struct `jwt.Token` (the header is represented by `Method`). -/
structure Token where
  Raw : String
  Method : SigningMethod
  Claims : Claims
  Signature : String
  Valid : Bool
  deriving DecidableEq, Repr

/-- What the structural decoding of a token string yields: the text that is signed
(`parts[0] + "." + parts[1]`), the string under `"alg"` in the header (if any), the claims,
and the decoded third segment (`none` when it is not base64url). -/
structure Segments where
  signingString : String
  alg : Option String
  claims : MapClaims
  signature : Option String
  deriving DecidableEq, Repr

end jwt

/-- The primitives of the external packages.
* `hmac h key text`: the HMAC of `text` under `key` with hash `h` (`crypto/hmac`);
* `SigningString alg claims`: base64url of the JSON header, a dot, base64url of the JSON
  claims (`Token.SigningString`);
* `EncodeSegment`: base64url of a signature;
* `decode`: splitting a token string in three segments and decoding header and claims
  (`Parser.ParseUnverified` up to the method lookup), `none` when that fails;
* `GenerateFromPassword salt password cost`, `CompareHashAndPassword hash password`: bcrypt,
  with the random salt made explicit. -/
structure Lib where
  hmac : jwt.Hash → String → String → String
  SigningString : String → jwt.Claims → String
  EncodeSegment : String → String
  decode : String → Option jwt.Segments
  GenerateFromPassword : String → String → Nat → Except Err String
  CompareHashAndPassword : String → String → Option Err

namespace jwt

/-- The constructor `jwt.NewWithClaims`. -/
def NewWithClaims (method : SigningMethod) (claims : Claims) : Token :=
  { Raw := "", Method := method, Claims := claims, Signature := "", Valid := false }

/-- The method `Sign` with a `[]byte` key: the HMAC methods accept it, the others refuse the
key type. -/
def SigningMethod.Sign (lib : Lib) (m : SigningMethod) (signingString key : String) :
    Except Err String :=
  match m with
  | .HMAC h => .ok (lib.hmac h key signingString)
  | _ => .error (.sentinel .jwtErrInvalidKeyType)

/-- The method `Verify` with a `[]byte` key: an HMAC method compares the signature with the
MAC; an asymmetric method refuses the key type and the `none` method refuses the key, each
with a fresh error wrapping the sentinel. -/
def SigningMethod.Verify (lib : Lib) (m : SigningMethod) (signingString sig key : String) :
    Option Err :=
  match m with
  | .HMAC h => if sig = lib.hmac h key signingString then none
      else some (.sentinel .jwtErrSignatureInvalid)
  | .asymmetric _ => some (.wrapped [.jwtErrInvalidKeyType])
  | .unsecured => some (.wrapped [.jwtErrTokenUnverifiable])

/-- The method `Token.SignedString`. -/
def Token.SignedString (lib : Lib) (t : Token) (key : String) : String × Option Err :=
  let sstr := lib.SigningString t.Method.Alg t.Claims
  match t.Method.Sign lib sstr key with
  | .error err => ("", some err)
  | .ok sig => (sstr ++ "." ++ lib.EncodeSegment sig, none)

/-- The sentinels an error value wraps. -/
def chain : Err → List Sentinel
  | .sentinel s => [s]
  | .wrapped c => c
  | .other _ => []

/-- The helper `newError(message, err, more...)`: a fresh value, made with `fmt.Errorf` and
`%w` verbs, wrapping `err` and `more` (the message is not represented). -/
def newError (err : Sentinel) (more : List Err) : Err :=
  .wrapped (err :: (more.map chain).flatten)

/-- The helper `joinErrors`. -/
def joinErrors (errs : List Err) : Err :=
  .wrapped ((errs.map chain).flatten)

/-- The method `MapClaims.parseNumericDate` of `golang-jwt/jwt/v5`: an absent key reads as
"no date", and so does the number zero (`case float64: if exp == 0 { return nil, nil }`);
any other number is that many seconds after the epoch; a value that is not a number is an
error wrapping `ErrInvalidType`.  The embedding is exact for integral numbers of seconds
that `int64` and `time.Time` hold without wrapping (timestamps of any practical date); the
library's conversion of larger or fractional `float64` values is not represented. -/
def MapClaims.parseNumericDate (m : MapClaims) (key : String) : Except Err (Option Time) :=
  match m.lookup key with
  | none => .ok none
  | some (.num n) => if n = 0 then .ok none else .ok (some (Time.ofUnix n))
  | some _ => .error (newError .jwtErrInvalidType [])

/-- The check `Validator.verifyExpiresAt` (claim not required, no leeway). -/
def verifyExpiresAt (claims : MapClaims) (cmp : Time) : Option Err :=
  match claims.parseNumericDate "exp" with
  | .error err => some err
  | .ok none => none
  | .ok (some exp) => if cmp.Before exp then none else some (.sentinel .jwtErrTokenExpired)

/-- The check `Validator.verifyNotBefore` (claim not required, no leeway). -/
def verifyNotBefore (claims : MapClaims) (cmp : Time) : Option Err :=
  match claims.parseNumericDate "nbf" with
  | .error err => some err
  | .ok none => none
  | .ok (some nbf) => if !cmp.Before nbf then none else some (.sentinel .jwtErrTokenNotValidYet)

/-- The method `Validator.Validate` of the default validator: expiry and not-before are
checked, issued-at, audience, issuer and subject are not. -/
def Validate (claims : MapClaims) (now : Time) : Option Err :=
  let errs := (verifyExpiresAt claims now).toList ++ (verifyNotBefore claims now).toList
  if errs.isEmpty then none else some (joinErrors errs)

/-- The function `jwt.Parse` of `golang-jwt/jwt/v5` (default parser, claims decoded into a
`MapClaims`), with the reading of the clock made explicit.  The sequence is: structural
decoding, method lookup, signature decoding, key function, signature verification, claims
validation.  Every error it returns is built by `newError`, so it wraps the sentinel that
names the failure and is not that sentinel itself.  On failure the library also hands back
the partly filled token, which the caller here discards and which is not represented. -/
def Parse (lib : Lib) (now : Time) (tokenString : String)
    (keyFunc : Token → Except Err String) : Except Err Token :=
  match lib.decode tokenString with
  | none => .error (newError .jwtErrTokenMalformed [])
  | some seg =>
    match seg.alg.bind GetSigningMethod with
    | none => .error (newError .jwtErrTokenUnverifiable [])
    | some method =>
      match seg.signature with
      | none => .error (newError .jwtErrTokenMalformed [])
      | some sig =>
        let token : Token :=
          { Raw := tokenString, Method := method, Claims := .map seg.claims,
            Signature := sig, Valid := false }
        match keyFunc token with
        | .error err => .error (newError .jwtErrTokenUnverifiable [err])
        | .ok key =>
          match method.Verify lib seg.signingString sig key with
          | some err => .error (newError .jwtErrTokenSignatureInvalid [err])
          | none =>
            match Validate seg.claims now with
            | some err => .error (newError .jwtErrTokenInvalidClaims [err])
            | none => .ok { token with Valid := true }

/-- The package-level variable `jwt.ErrTokenExpired`. -/
def ErrTokenExpired : Err := .sentinel .jwtErrTokenExpired

end jwt

namespace uuid

/-- A `uuid.UUID`, represented by its canonical text. -/
structure UUID where
  text : String
  deriving DecidableEq, Repr

/-- The method `UUID.String`. -/
def UUID.String (u : UUID) : String := u.text

end uuid

namespace bcrypt

def DefaultCost : Nat := 10

end bcrypt

/-! ## The identity record (`internal/domain/entity/user.go`) -/

namespace entity

structure User where
  ID : uuid.UUID
  Email : String
  Password : String
  Name : String
  Role : String
  Active : Bool
  CreatedAt : Time
  UpdatedAt : Time
  deriving DecidableEq, Repr

/-- The constructor `NewUser`.  The salt drawn by bcrypt, the identifier drawn by
`uuid.New()` and the two readings of the clock are arguments. -/
def NewUser (lib : Lib) (salt : String) (id : uuid.UUID) (now₁ now₂ : Time)
    (email password name : String) : Option User × Option Err :=
  match lib.GenerateFromPassword salt password bcrypt.DefaultCost with
  | .error err => (none, some err)
  | .ok hashedPassword =>
    (some
      { ID := id
        Email := email
        Password := hashedPassword
        Name := name
        Role := "user"
        Active := true
        CreatedAt := now₁
        UpdatedAt := now₂ }, none)

def User.ComparePassword (lib : Lib) (u : User) (password : String) : Option Err :=
  lib.CompareHashAndPassword u.Password password

def User.UpdatePassword (lib : Lib) (salt : String) (now : Time) (u : User)
    (password : String) : User × Option Err :=
  match lib.GenerateFromPassword salt password bcrypt.DefaultCost with
  | .error err => (u, some err)
  | .ok hashedPassword => ({ u with Password := hashedPassword, UpdatedAt := now }, none)

def User.Update (now : Time) (u : User) (name : String) : User :=
  { u with Name := name, UpdatedAt := now }

def User.SetRole (now : Time) (u : User) (role : String) : User :=
  { u with Role := role, UpdatedAt := now }

def User.SetActive (now : Time) (u : User) (active : Bool) : User :=
  { u with Active := active, UpdatedAt := now }

end entity

/-! ## The credential store (`internal/domain/repository`) -/

namespace repository

/-- The interface `UserRepository`, as what each method answers in the present state of the
store: the lookups return the Go pair `(*entity.User, error)`, the writing methods their
`error`.  (`List` is not embedded.) -/
structure UserRepository where
  FindByEmail : String → Option entity.User × Option Err
  FindByID : uuid.UUID → Option entity.User × Option Err
  Create : entity.User → Option Err
  Update : entity.User → Option Err
  Delete : uuid.UUID → Option Err

/-- A call of a writing method of the repository, with its argument. -/
inductive Write
  | Create (user : entity.User)
  | Update (user : entity.User)
  | Delete (id : uuid.UUID)
  deriving DecidableEq, Repr

end repository

/-! ## The session gate (`internal/application/service/auth_service.go`) -/

namespace service

structure authService where
  config : config.Config
  userRepo : repository.UserRepository

/-- The claims that `Login` puts in a token for `user`; `now₁` and `now₂` are the readings of
the clock for `exp` and `iat`. -/
def loginClaims (ttl : Duration) (now₁ now₂ : Time) (user : entity.User) : jwt.MapClaims :=
  [ ("sub", .str user.ID.String),
    ("email", .str user.Email),
    ("role", .str user.Role),
    ("exp", .num (now₁.Add ttl).Unix),
    ("iat", .num now₂.Unix) ]

/-- The method `authService.Login`. -/
def authService.Login (lib : Lib) (s : authService) (now₁ now₂ : Time)
    (email password : String) : Result String :=
  match s.userRepo.FindByEmail email with
  | (_, some _) => .ret "" (some errors.ErrInvalidCredential)
  | (none, none) => .nilDeref
  | (some user, none) =>
    match user.ComparePassword lib password with
    | some _ => .ret "" (some errors.ErrInvalidCredential)
    | none =>
      if !user.Active then .ret "" (some errors.ErrUnauthorized)
      else
        let token := jwt.NewWithClaims jwt.SigningMethodHS256
          (.map (loginClaims s.config.JWT.ExpirationHours now₁ now₂ user))
        match token.SignedString lib s.config.JWT.Secret with
        | (_, some err) => .ret "" (some err)
        | (tokenString, none) => .ret tokenString none

/-- The key function that `ValidateToken` hands to `jwt.Parse`. -/
def authService.keyFunc (s : authService) (token : jwt.Token) : Except Err String :=
  match token.Method with
  | .HMAC _ => .ok s.config.JWT.Secret
  | _ => .error errors.ErrInvalidToken

/-- The method `authService.ValidateToken`; `now` is the reading of the clock inside
`jwt.Parse`. -/
def authService.ValidateToken (lib : Lib) (s : authService) (now : Time)
    (tokenString : String) : Option jwt.Token × Option Err :=
  match jwt.Parse lib now tokenString s.keyFunc with
  | .error err =>
    if err = jwt.ErrTokenExpired then (none, some errors.ErrTokenExpired)
    else (none, some errors.ErrInvalidToken)
  | .ok token =>
    if !token.Valid then (none, some errors.ErrInvalidToken)
    else (some token, none)

/-- The claims that `RefreshToken` puts in the new token. -/
def refreshClaims (ttl : Duration) (now₁ now₂ : Time) (claims : jwt.MapClaims) :
    jwt.MapClaims :=
  [ ("sub", claims.index "sub"),
    ("email", claims.index "email"),
    ("role", claims.index "role"),
    ("exp", .num (now₁.Add ttl).Unix),
    ("iat", .num now₂.Unix) ]

/-- The method `authService.RefreshToken`; `now` is the reading of the clock inside
`jwt.Parse`, `now₁` and `now₂` the readings for `exp` and `iat`. -/
def authService.RefreshToken (lib : Lib) (s : authService) (now now₁ now₂ : Time)
    (tokenString : String) : Result String :=
  match s.ValidateToken lib now tokenString with
  | (token, err) =>
    if err ≠ none ∧ err ≠ some errors.ErrTokenExpired then .ret "" err
    else
      match token with
      | none => .nilDeref
      | some token =>
        match token.Claims.asMapClaims with
        | none => .ret "" (some errors.ErrInvalidToken)
        | some claims =>
          let newToken := jwt.NewWithClaims jwt.SigningMethodHS256
            (.map (refreshClaims s.config.JWT.ExpirationHours now₁ now₂ claims))
          match newToken.SignedString lib s.config.JWT.Secret with
          | (_, some err) => .ret "" (some err)
          | (tokenString, none) => .ret tokenString none

end service

/-! ## JSON (`encoding/json`) -/

namespace json

/-- The JSON value of a struct field of scalar type (a `time.Time` is kept as the instant it
is rendered from). -/
inductive Scalar
  | null
  | bool (b : Bool)
  | num (n : Int)
  | str (s : String)
  | time (t : Time)
  deriving DecidableEq, Repr

/-- A JSON object with scalar members, in the order of encoding. -/
abbrev Object := List (String × Scalar)

/-- A struct field as `json.Marshal` sees it: the name in its `json` tag and its value. -/
structure Field where
  tag : String
  value : Scalar
  deriving DecidableEq, Repr

/-- The function `json.Marshal` on a struct: every field is encoded under the name of its
tag, except the fields tagged `-`, which are left out. -/
def Marshal (fields : List Field) : Object :=
  (fields.filter fun f => f.tag ≠ "-").map fun f => (f.tag, f.value)

end json

/-! ## HTTP (`net/http`, `context`) -/

namespace http

def StatusOK : Nat := 200
def StatusCreated : Nat := 201
def StatusBadRequest : Nat := 400
def StatusUnauthorized : Nat := 401
def StatusForbidden : Nat := 403
def StatusNotFound : Nat := 404
def StatusConflict : Nat := 409
def StatusInternalServerError : Nat := 500

/-- A context key: the package-private type `contextKey` of the middleware package, or a key
of another type. -/
inductive CtxKey
  | contextKey (name : String)
  | foreign (name : String)
  deriving DecidableEq, Repr

/-- A value stored in a context. -/
inductive CtxValue
  | mapClaims (claims : jwt.MapClaims)
  | otherValue (tag : String)
  deriving DecidableEq, Repr

/-- A `context.Context`, as the chain of its `WithValue` bindings, innermost first. -/
abbrev Context := List (CtxKey × CtxValue)

/-- The function `context.WithValue`. -/
def Context.WithValue (parent : Context) (key : CtxKey) (val : CtxValue) : Context :=
  (key, val) :: parent

/-- The method `Context.Value`. -/
def Context.Value (ctx : Context) (key : CtxKey) : Option CtxValue :=
  ctx.lookup key

/-- An `*http.Request`: its headers (name, value), its context, its body and the parameters
the router took from the URL. -/
structure Request where
  Header : List (String × String)
  ctx : Context
  Body : String := ""
  URLParams : List (String × String) := []
  Method : String := "GET"
  deriving DecidableEq, Repr

/-- The method `Header.Get`: the first value under the name, the empty string if none. -/
def Request.HeaderGet (r : Request) (name : String) : String :=
  (r.Header.lookup name).getD ""

def Request.Context (r : Request) : http.Context := r.ctx

def Request.WithContext (r : Request) (ctx : http.Context) : Request :=
  { r with ctx := ctx }

/-- What has been written to an `http.ResponseWriter`: status, content type and body. -/
inductive Body
  | errorResponse (e : errors.ErrorResponse)
  | payload (json : String)
  | object (o : json.Object)
  | array (os : List json.Object)
  deriving DecidableEq, Repr

/-- The header map of a response, `w.Header()`: names with their value. -/
abbrev HeaderMap := List (String × String)

/-- The method `Header.Set`: the value under the name is replaced. -/
def HeaderMap.Set (h : HeaderMap) (key value : String) : HeaderMap :=
  (h.filter fun kv => kv.1 ≠ key) ++ [(key, value)]

/-- The method `Header.Get` on a response header map. -/
def HeaderMap.Get (h : HeaderMap) (key : String) : String :=
  (h.lookup key).getD ""

structure Response where
  status : Nat
  contentType : String
  body : Body
  Header : HeaderMap := []
  deriving DecidableEq, Repr

/-- What serving a request comes to: a response has been written, or the handler stopped in
the run-time failure of a nil pointer dereference. -/
inductive Served
  | response (resp : Response)
  | nilDeref
  deriving DecidableEq, Repr

/-- The status code written, if a response was written. -/
def Served.status : Served → Option Nat
  | .response resp => some resp.status
  | .nilDeref => none

/-- An `http.Handler`. -/
abbrev Handler := Request → Served

end http

namespace strings

/-- Splitting a list of characters at every occurrence of `sep`. -/
def splitChars (sep : Char) : List Char → List (List Char)
  | [] => [[]]
  | c :: cs =>
    if c = sep then [] :: splitChars sep cs
    else
      match splitChars sep cs with
      | [] => [[c]]
      | p :: ps => (c :: p) :: ps

/-- The function `strings.Split` for a one-character separator. -/
def Split (s : String) (sep : Char) : List String :=
  (splitChars sep s.toList).map String.mk

end strings

/-! ## The middleware (`internal/interfaces/http/middleware/auth_middleware.go`) -/

namespace middleware

open http

structure AuthMiddleware where
  authService : service.authService

def extractToken (r : Request) : String :=
  let bearerToken := r.HeaderGet "Authorization"
  let strArr := strings.Split bearerToken ' '
  match strArr with
  | [_, t] => t
  | _ => ""

def respondWithError (code : Nat) (err : Err) : Served :=
  let response := errors.NewErrorResponse code err.Error
  .response
    { status := code, contentType := "application/json", body := .errorResponse response }

/-- The middleware `Authenticate`: verifies the JWT token in the request header. -/
def AuthMiddleware.Authenticate (lib : Lib) (m : AuthMiddleware) (now : Time)
    (next : Handler) : Handler :=
  fun r =>
    let token := extractToken r
    if token = "" then respondWithError StatusUnauthorized errors.ErrUnauthorized
    else
      match m.authService.ValidateToken lib now token with
      | (_, some err) => respondWithError StatusUnauthorized err
      | (none, none) => .nilDeref
      | (some jwtToken, none) =>
        match jwtToken.Claims.asMapClaims with
        | none => respondWithError StatusUnauthorized errors.ErrInvalidToken
        | some claims =>
          let ctx := r.Context.WithValue (.contextKey "claims") (.mapClaims claims)
          next (r.WithContext ctx)

/-- The type assertion `v.(jwt.MapClaims)` on the result of `Context.Value`. -/
def asMapClaims : Option CtxValue → Option jwt.MapClaims
  | some (.mapClaims claims) => some claims
  | _ => none

/-- The middleware `RequireRole`: checks if the authenticated user has the required role. -/
def AuthMiddleware.RequireRole (_m : AuthMiddleware) (role : String) (next : Handler) :
    Handler :=
  fun r =>
    match asMapClaims (r.Context.Value (.contextKey "claims")) with
    | none => respondWithError StatusUnauthorized errors.ErrUnauthorized
    | some claims =>
      match (claims.index "role").asString with
      | none => respondWithError StatusForbidden errors.ErrForbidden
      | some userRole =>
        if userRole ≠ role then respondWithError StatusForbidden errors.ErrForbidden
        else next r

end middleware

/-! ## The user service (`internal/application/service/user_service.go`) -/

namespace service

structure userService where
  userRepo : repository.UserRepository

/-- What a call of a method of the user service comes to: what it returns (or the nil
dereference it stops in), the record it fetched from the repository as the call leaves it
(`none` when no record was fetched), and the writing calls it made on the repository, in
order. -/
structure Run (α : Type) where
  result : Result α
  record : Option entity.User
  writes : List repository.Write

/-- The method `userService.Create`.  The salt, the identifier and the two readings of the
clock that `entity.NewUser` draws are arguments.  A nil record without an error, which
`entity.NewUser` never returns, would be handed to the repository and dereferenced there. -/
def userService.Create (lib : Lib) (s : userService) (salt : String) (id : uuid.UUID)
    (now₁ now₂ : Time) (email password name : String) : Run (Option entity.User) :=
  match s.userRepo.FindByEmail email with
  | (_, none) => ⟨.ret none (some errors.ErrUserAlreadyExists), none, []⟩
  | (_, some _) =>
    match entity.NewUser lib salt id now₁ now₂ email password name with
    | (_, some err) => ⟨.ret none (some err), none, []⟩
    | (none, none) => ⟨.nilDeref, none, []⟩
    | (some user, none) =>
      match s.userRepo.Create user with
      | some err => ⟨.ret none (some err), none, [.Create user]⟩
      | none => ⟨.ret (some user) none, none, [.Create user]⟩

/-- The method `userService.GetByID`. -/
def userService.GetByID (s : userService) (id : uuid.UUID) :
    Option entity.User × Option Err :=
  s.userRepo.FindByID id

/-- The method `userService.UpdateRole`; `now` is the reading of the clock in `SetRole`. -/
def userService.UpdateRole (s : userService) (now : Time) (id : uuid.UUID)
    (role : String) : Run Unit :=
  match s.userRepo.FindByID id with
  | (user, some err) => ⟨.ret () (some err), user, []⟩
  | (user, none) =>
    if role = "admin" ∨ role = "user" then
      match user with
      | none => ⟨.nilDeref, none, []⟩
      | some user =>
        let user := user.SetRole now role
        ⟨.ret () (s.userRepo.Update user), some user, [.Update user]⟩
    else ⟨.ret () (some errors.ErrInvalidRole), user, []⟩

end service

/-! ## The handlers (`internal/interfaces/http/handler`) -/

namespace entity

/-- The fields of `User` with their `json` tags, in the order of the struct. -/
def User.fields (u : User) : List json.Field :=
  [ ⟨"id", .str u.ID.String⟩,
    ⟨"email", .str u.Email⟩,
    ⟨"-", .str u.Password⟩,
    ⟨"name", .str u.Name⟩,
    ⟨"role", .str u.Role⟩,
    ⟨"active", .bool u.Active⟩,
    ⟨"created_at", .time u.CreatedAt⟩,
    ⟨"updated_at", .time u.UpdatedAt⟩ ]

end entity

namespace handler

open http

structure LoginRequest where
  Email : String
  Password : String
  deriving DecidableEq, Repr

structure TokenResponse where
  Token : String
  deriving DecidableEq, Repr

/-- The fields of `TokenResponse` with their `json` tags. -/
def TokenResponse.fields (t : TokenResponse) : List json.Field :=
  [ ⟨"token", .str t.Token⟩ ]

/-- The external packages at the HTTP boundary: decoding a request body into a
`LoginRequest` (`json.NewDecoder(r.Body).Decode`, `none` when it fails), the `email` rule
of the validator, and `uuid.Parse` (`none` when it fails). -/
structure Boundary where
  DecodeLoginRequest : String → Option LoginRequest
  IsEmail : String → Bool
  ParseUUID : String → Option uuid.UUID

/-- The call `validate.Struct(req)` on a `LoginRequest`, by its tags: `required,email` on
`Email` and `required,min=6` on `Password`.  True when the validator returns no error. -/
def LoginRequest.valid (b : Boundary) (req : LoginRequest) : Bool :=
  (req.Email ≠ "" ∧ b.IsEmail req.Email = true) ∧ (req.Password ≠ "" ∧ 6 ≤ req.Password.length)

structure AuthHandler where
  authService : service.authService

structure UserHandler where
  userService : service.userService

/-- The values handed to `respondWithJSON` as `payload`. -/
inductive Payload
  | errorResponse (e : errors.ErrorResponse)
  | tokenResponse (t : TokenResponse)
  | user (u : Option entity.User)

/-- The call `json.Marshal(payload)`; a nil `*entity.User` encodes as `null`. -/
def Payload.Marshal : Payload → Body
  | .errorResponse e => .errorResponse e
  | .tokenResponse t => .object (json.Marshal t.fields)
  | .user none => .payload "null"
  | .user (some u) => .object (json.Marshal u.fields)

def extractToken (r : Request) : String :=
  let bearerToken := r.HeaderGet "Authorization"
  let strArr := strings.Split bearerToken ' '
  match strArr with
  | [_, t] => t
  | _ => ""

def respondWithJSON (code : Nat) (payload : Payload) : Served :=
  let response := payload.Marshal
  .response { status := code, contentType := "application/json", body := response }

def respondWithError (code : Nat) (err : Err) : Served :=
  respondWithJSON code (.errorResponse (errors.NewErrorResponse code err.Error))

/-- The handler `AuthHandler.Login`; `now₁` and `now₂` are the readings of the clock in
`authService.Login`. -/
def AuthHandler.Login (lib : Lib) (b : Boundary) (h : AuthHandler) (now₁ now₂ : Time) :
    Handler :=
  fun r =>
    match b.DecodeLoginRequest r.Body with
    | none => respondWithError StatusBadRequest errors.ErrInvalidInput
    | some req =>
      if !req.valid b then respondWithError StatusBadRequest errors.ErrValidation
      else
        match h.authService.Login lib now₁ now₂ req.Email req.Password with
        | .nilDeref => .nilDeref
        | .ret _ (some err) =>
          if err = errors.ErrInvalidCredential then respondWithError StatusUnauthorized err
          else respondWithError StatusInternalServerError errors.ErrInternalServer
        | .ret token none => respondWithJSON StatusOK (.tokenResponse { Token := token })

/-- The function `chi.URLParam`. -/
def URLParam (r : Request) (key : String) : String :=
  (r.URLParams.lookup key).getD ""

/-- The handler `UserHandler.GetUser`. -/
def UserHandler.GetUser (b : Boundary) (h : UserHandler) : Handler :=
  fun r =>
    match b.ParseUUID (URLParam r "id") with
    | none => respondWithError StatusBadRequest errors.ErrInvalidInput
    | some id =>
      match h.userService.GetByID id with
      | (_, some err) =>
        if err = errors.ErrUserNotFound then respondWithError StatusNotFound err
        else respondWithError StatusInternalServerError errors.ErrInternalServer
      | (user, none) => respondWithJSON StatusOK (.user user)

end handler

/-! ## Contracts of the external primitives, as used in the statements -/

/-- The wire codec reads back the token that `SignedString` builds from `alg`, `claims` and
the signature `sig`: it finds the signed text, the algorithm, the claims and the signature. -/
def Decodes (lib : Lib) (alg : String) (claims : jwt.MapClaims) (sig : String) : Prop :=
  lib.decode (lib.SigningString alg (.map claims) ++ "." ++ lib.EncodeSegment sig) =
    some { signingString := lib.SigningString alg (.map claims), alg := some alg,
           claims := claims, signature := some sig }

/-- The password derivation is accepted by the comparison for the password it was derived
from. -/
def BcryptSound (lib : Lib) : Prop :=
  ∀ salt password cost hash,
    lib.GenerateFromPassword salt password cost = .ok hash →
      lib.CompareHashAndPassword hash password = none

/-- The decoded segments name a registered method under which the signature verifies with
`key`. -/
def jwt.Segments.verifies (lib : Lib) (seg : jwt.Segments) (key : String) : Bool :=
  match seg.alg.bind jwt.GetSigningMethod, seg.signature with
  | some method, some sig => (method.Verify lib seg.signingString sig key).isNone
  | _, _ => false

/-- The number under `key` in the claims, if the value there is a number. -/
def jwt.MapClaims.number (m : jwt.MapClaims) (key : String) : Option Int :=
  match m.lookup key with
  | some (.num n) => some n
  | _ => none

/-- A middleware passes the request `r'` on: whatever the next handler is, the response to
`r` is the next handler's response to `r'`. -/
def http.Invokes (mw : http.Handler → http.Handler) (r r' : http.Request) : Prop :=
  ∀ next, mw next r = next r'

/-- A middleware answers `r` itself with `resp`: the next handler has no part in it. -/
def http.Denies (mw : http.Handler → http.Handler) (r : http.Request)
    (resp : http.Served) : Prop :=
  ∀ next, mw next r = resp

/-! ## A concrete instance

A small instance of the primitives, a store with two users and a few token strings, on which
the definitions can be run. -/

namespace demo

/-- A textual rendering of a claim value. -/
def renderValue : jwt.ClaimValue → String
  | .str s => s
  | .num n => toString n
  | .bool b => toString b
  | .null => "null"
  | .composite json => json

/-- A textual rendering of claims. -/
def render : jwt.Claims → String
  | .map m => String.join (m.map fun kv => kv.1 ++ "=" ++ renderValue kv.2 ++ ";")
  | .registered json => json

/-- A keyed tag: the key followed by the text. -/
def tag (_h : jwt.Hash) (key text : String) : String := key ++ "#" ++ text

def signingString (alg : String) (c : jwt.Claims) : String := alg ++ "." ++ render c

/-- A token string together with what it decodes to. -/
def wire (alg : String) (claims : jwt.MapClaims) (sig : String) : String × jwt.Segments :=
  (signingString alg (.map claims) ++ "." ++ sig,
    { signingString := signingString alg (.map claims), alg := some alg, claims := claims,
      signature := some sig })

def secret : String := "your-secret-key"

/-- Claims of alice's session: issued at second 1000, expiring at second 87400. -/
def claims₀ : jwt.MapClaims :=
  [("sub", .str "u-1"), ("email", .str "alice@x.com"), ("role", .str "user"),
   ("exp", .num 87400), ("iat", .num 1000)]

/-- The same claims with the role changed by hand. -/
def claimsForged : jwt.MapClaims :=
  [("sub", .str "u-1"), ("email", .str "alice@x.com"), ("role", .str "admin"),
   ("exp", .num 87400), ("iat", .num 1000)]

/-- Claims whose expiry is the number zero. -/
def claimsZero : jwt.MapClaims :=
  [("sub", .str "u-1"), ("email", .str "alice@x.com"), ("role", .str "user"),
   ("exp", .num 0), ("iat", .num 1000)]

/-- The token strings that decode: alice's token, a forgery carrying the signature of
alice's token, a token with expiry zero signed with the secret, alice's claims under a
header declaring `HS384` and signed accordingly, and alice's claims under a header declaring
`none` with an empty signature. -/
def table : List (String × jwt.Segments) :=
  [ wire "HS256" claims₀ (tag .SHA256 secret (signingString "HS256" (.map claims₀))),
    wire "HS256" claimsForged (tag .SHA256 secret (signingString "HS256" (.map claims₀))),
    wire "HS256" claimsZero (tag .SHA256 secret (signingString "HS256" (.map claimsZero))),
    wire "HS384" claims₀ (tag .SHA384 secret (signingString "HS384" (.map claims₀))),
    wire "none" claims₀ "" ]

def lib : Lib :=
  { hmac := tag
    SigningString := signingString
    EncodeSegment := fun sig => sig
    decode := fun s => table.lookup s
    GenerateFromPassword := fun _ password _ => .ok ("$" ++ password)
    CompareHashAndPassword := fun hash password =>
      if hash = "$" ++ password then none else some (.other "mismatch") }

def alice : entity.User :=
  { ID := ⟨"u-1"⟩, Email := "alice@x.com", Password := "$secret1", Name := "Alice",
    Role := "user", Active := true, CreatedAt := 0, UpdatedAt := 0 }

/-- A user whose account has been switched off. -/
def bob : entity.User :=
  entity.User.SetActive 5
    { ID := ⟨"u-2"⟩, Email := "bob@x.com", Password := "$hunter2", Name := "Bob",
      Role := "user", Active := true, CreatedAt := 0, UpdatedAt := 0 } false

def repo : repository.UserRepository :=
  { FindByEmail := fun email =>
      if email = alice.Email then (some alice, none)
      else if email = bob.Email then (some bob, none)
      else (none, some errors.ErrUserNotFound)
    FindByID := fun id =>
      if id = alice.ID then (some alice, none)
      else if id = bob.ID then (some bob, none)
      else (none, some errors.ErrUserNotFound)
    Create := fun user =>
      if user.Email = alice.Email ∨ user.Email = bob.Email then
        some errors.ErrUserAlreadyExists
      else none
    Update := fun user =>
      if user.ID = alice.ID ∨ user.ID = bob.ID then none else some errors.ErrUserNotFound
    Delete := fun id =>
      if id = alice.ID ∨ id = bob.ID then none else some errors.ErrUserNotFound }

def svc : service.authService := { config := config.Load, userRepo := repo }

/-- The same service configured with another secret. -/
def svcOther : service.authService :=
  { config := { config.Load with JWT := { config.Load.JWT with Secret := "another-key" } },
    userRepo := repo }

def mw : middleware.AuthMiddleware := { authService := svc }

/-- Second 1000 after the epoch. -/
def t₀ : Time := 1000 * 1000000000

/-- Second 90000 after the epoch, past the expiry of alice's token. -/
def tLate : Time := 90000 * 1000000000

/-- The token `Login` issues to alice at `t₀`. -/
def token₀ : String := (wire "HS256" claims₀ (tag .SHA256 secret (signingString "HS256" (.map claims₀)))).1

def tokenForged : String := (wire "HS256" claimsForged (tag .SHA256 secret (signingString "HS256" (.map claims₀)))).1

def tokenZero : String := (wire "HS256" claimsZero (tag .SHA256 secret (signingString "HS256" (.map claimsZero)))).1

/-- A request with the given value of the `Authorization` header and an empty context. -/
def request (authorization : String) : http.Request :=
  { Header := [("Authorization", authorization)], ctx := [] }

/-- A handler that answers 200. -/
def okHandler : http.Handler :=
  fun _ =>
    .response
      { status := http.StatusOK, contentType := "application/json", body := .payload "ok" }

end demo

/-! ## Predicates and instances for the identity record and the handlers -/

/-- The role of the record is in the closed set. -/
def entity.User.ValidRole (u : entity.User) : Prop :=
  u.Role = "user" ∨ u.Role = "admin"

namespace demo

def users : service.userService := { userRepo := repo }

/-- A boundary that reads a body of the form `email password`, takes a string with an `@`
for an email address and reads any non-empty string as an identifier. -/
def boundary : handler.Boundary :=
  { DecodeLoginRequest := fun body =>
      match strings.Split body ' ' with
      | [email, password] => some { Email := email, Password := password }
      | _ => none
    IsEmail := fun s => s.toList.contains '@'
    ParseUUID := fun s => if s = "" then none else some ⟨s⟩ }

def authHandler : handler.AuthHandler := { authService := svc }

def userHandler : handler.UserHandler := { userService := users }

/-- The token whose header declares `HS384`, signed accordingly with the secret. -/
def tokenHS384 : String :=
  (wire "HS384" claims₀ (tag .SHA384 secret (signingString "HS384" (.map claims₀)))).1

/-- The token whose header declares `none`, with an empty signature. -/
def tokenNone : String := (wire "none" claims₀ "").1

/-- A login request with the given body. -/
def loginRequest (body : String) : http.Request :=
  { Header := [], ctx := [], Body := body }

end demo

/-! ## Changing the password (`internal/application/service/user_service.go`) -/

namespace service

/-- The method `userService.ChangePassword`; `salt` is the salt drawn by the derivation and
`now` the reading of the clock in `UpdatePassword`. -/
def userService.ChangePassword (lib : Lib) (s : userService) (salt : String) (now : Time)
    (id : uuid.UUID) (oldPassword newPassword : String) : Run Unit :=
  match s.userRepo.FindByID id with
  | (user, some err) => ⟨.ret () (some err), user, []⟩
  | (none, none) => ⟨.nilDeref, none, []⟩
  | (some user, none) =>
    match user.ComparePassword lib oldPassword with
    | some _ => ⟨.ret () (some errors.ErrInvalidPassword), some user, []⟩
    | none =>
      match user.UpdatePassword lib salt now newPassword with
      | (user, some err) => ⟨.ret () (some err), some user, []⟩
      | (user, none) => ⟨.ret () (s.userRepo.Update user), some user, [.Update user]⟩

end service

/-! ## Cross-origin headers (`internal/interfaces/http/middleware/cors_middleware.go`) -/

namespace builtin

/-- The conversion `string(n)` of an integer: the string of the one character whose code
point is `n`, and the replacement character U+FFFD when `n` is no valid code point. -/
def string (n : Int) : String :=
  if 0 ≤ n ∧ n.toNat.isValidChar then String.singleton (Char.ofNat n.toNat)
  else String.singleton (Char.ofNat 0xFFFD)

end builtin

namespace strconv

/-- The decimal representation of an integer (`strconv.Itoa`). -/
def Itoa (n : Int) : String := toString n

end strconv

namespace strings

/-- The function `strings.Join`. -/
def Join (elems : List String) (sep : String) : String := sep.intercalate elems

end strings

namespace http

def MethodOptions : String := "OPTIONS"

/-- The header map of what has been served (empty when nothing was written). -/
def Served.Header : Served → HeaderMap
  | .response resp => resp.Header
  | .nilDeref => []

end http

namespace middleware

open http

structure CorsMiddleware where
  config : config.Config

/-- The loop of `Cors` over the allowed origins: some entry is `*` or the origin. -/
def CorsMiddleware.allowed (m : CorsMiddleware) (origin : String) : Bool :=
  m.config.Cors.AllowedOrigins.any fun allowedOrigin =>
    decide (allowedOrigin = "*" ∨ allowedOrigin = origin)

/-- The header map `w.Header()` after the block `if allowed` of `Cors`. -/
def CorsMiddleware.setHeaders (m : CorsMiddleware) (origin : String) (w : HeaderMap) :
    HeaderMap :=
  if m.allowed origin then
    let w := w.Set "Access-Control-Allow-Origin" origin
    let w := w.Set "Access-Control-Allow-Methods"
      (strings.Join m.config.Cors.AllowedMethods ",")
    let w := w.Set "Access-Control-Allow-Headers"
      (strings.Join m.config.Cors.AllowedHeaders ",")
    let w := w.Set "Access-Control-Expose-Headers"
      (strings.Join m.config.Cors.ExposedHeaders ",")
    let w := if m.config.Cors.AllowCredentials then
      w.Set "Access-Control-Allow-Credentials" "true" else w
    let w := if m.config.Cors.MaxAge > 0 then
      w.Set "Access-Control-Max-Age" (builtin.string m.config.Cors.MaxAge) else w
    w
  else w

/-- The middleware `Cors`: handles CORS (Cross-Origin Resource Sharing).  A preflight request
is answered with status 200 and the headers set; any other request goes to the next
handler, whose response carries the headers set here unless it sets them again. -/
def CorsMiddleware.Cors (m : CorsMiddleware) (next : Handler) : Handler :=
  fun r =>
    let origin := r.HeaderGet "Origin"
    let w := m.setHeaders origin []
    if r.Method = MethodOptions then
      .response { status := StatusOK, contentType := "", body := .payload "", Header := w }
    else
      match next r with
      | .nilDeref => .nilDeref
      | .response resp =>
        .response { resp with Header := resp.Header.foldl (fun h kv => h.Set kv.1 kv.2) w }

end middleware

namespace demo

def cors : middleware.CorsMiddleware := { config := config.Load }

/-- A preflight request from the given origin. -/
def preflight (origin : String) : http.Request :=
  { Header := [("Origin", origin)], ctx := [], Method := "OPTIONS" }

/-- A `GET` request from the given origin. -/
def get (origin : String) : http.Request :=
  { Header := [("Origin", origin)], ctx := [] }

end demo

/-! ## The key of an HMAC (`crypto/hmac`) -/

namespace hmac

/-- The block size, in bytes, of the hash of each HMAC method. -/
def BlockSize : jwt.Hash → Nat
  | .SHA256 => 64
  | .SHA384 => 128
  | .SHA512 => 128

/-- The key block that `hmac.New` makes of the key: a key longer than the block is replaced
by its hash (`sum`), and the key is then copied into a block of zero bytes.  The MAC is
computed from this block and the text, so two keys with the same block give the same MAC.
Strings stand for byte strings. -/
def keyBlock (sum : jwt.Hash → String → String) (h : jwt.Hash) (key : String) : String :=
  let key := if BlockSize h < key.utf8ByteSize then sum h key else key
  key ++ String.mk (List.replicate (BlockSize h - key.utf8ByteSize) (Char.ofNat 0))

end hmac

namespace demo

/-- A keyed tag computed, as an HMAC is, from the key block of the key. -/
def tagPadded (h : jwt.Hash) (key text : String) : String :=
  tag h (hmac.keyBlock (fun _ k => String.mk (k.toList.take 32)) h key) text

/-- The token `Login` issues to alice at `t₀` when the MAC is `tagPadded`. -/
def tokenPadded : String :=
  (wire "HS256" claims₀ (tagPadded .SHA256 secret (signingString "HS256" (.map claims₀)))).1

/-- The instance `lib` with the MAC computed from the key block. -/
def libPadded : Lib :=
  { lib with
    hmac := tagPadded
    decode := fun s =>
      [wire "HS256" claims₀
        (tagPadded .SHA256 secret (signingString "HS256" (.map claims₀)))].lookup s }

/-- The secret followed by one zero byte. -/
def secretNul : String := secret ++ String.singleton (Char.ofNat 0)

/-- The same service configured with the secret followed by one zero byte. -/
def svcNul : service.authService :=
  { config := { config.Load with JWT := { config.Load.JWT with Secret := secretNul } },
    userRepo := repo }

end demo

/-! ## Login -/

namespace service

/-- C1. For every email, password and credential store, `Login` returns the empty token and
exactly `errors.ErrInvalidCredential` both when `FindByEmail` fails for the email and when
the user is found (active or not) but `ComparePassword` rejects the password: one and the
same returned value in the two cases. -/
theorem Login_invalid_credential (lib : Lib) (s : authService) (now₁ now₂ : Time)
    (email password : String)
    (h : (∃ u e, s.userRepo.FindByEmail email = (u, some e)) ∨
         (∃ user e, s.userRepo.FindByEmail email = (some user, none) ∧
            user.ComparePassword lib password = some e)) :
    s.Login lib now₁ now₂ email password = .ret "" (some errors.ErrInvalidCredential) := by
  rcases h with ⟨u, e, hfind⟩ | ⟨user, e, hfind, hpw⟩
  · simp [authService.Login, hfind]
  · simp [authService.Login, hfind, hpw]

/-- Witness of C1: an unknown email, a wrong password for an active user and a wrong
password for an inactive user all give the same result. -/
theorem Login_invalid_credential_witness :
    demo.svc.Login demo.lib demo.t₀ demo.t₀ "carol@x.com" "secret1"
        = .ret "" (some errors.ErrInvalidCredential) ∧
      demo.svc.Login demo.lib demo.t₀ demo.t₀ "alice@x.com" "wrong"
        = .ret "" (some errors.ErrInvalidCredential) ∧
      demo.svc.Login demo.lib demo.t₀ demo.t₀ "bob@x.com" "wrong"
        = .ret "" (some errors.ErrInvalidCredential) :=
  ⟨Login_invalid_credential demo.lib demo.svc demo.t₀ demo.t₀ "carol@x.com" "secret1"
      (Or.inl ⟨none, errors.ErrUserNotFound, by decide⟩),
    Login_invalid_credential demo.lib demo.svc demo.t₀ demo.t₀ "alice@x.com" "wrong"
      (Or.inr ⟨demo.alice, .other "mismatch", by decide, by decide⟩),
    Login_invalid_credential demo.lib demo.svc demo.t₀ demo.t₀ "bob@x.com" "wrong"
      (Or.inr ⟨demo.bob, .other "mismatch", by decide, by decide⟩)⟩

/-- Validation of a token issued with `SignedString` under the secret of the service, at a
time when the claims are valid: the token is returned with the claims it was issued with. -/
theorem ValidateToken_issued (lib : Lib) (s : authService) (now : Time)
    (claims : jwt.MapClaims)
    (hcodec : Decodes lib "HS256" claims
      (lib.hmac .SHA256 s.config.JWT.Secret (lib.SigningString "HS256" (.map claims))))
    (hvalid : jwt.Validate claims now = none) :
    ∃ token,
      s.ValidateToken lib now
          ((jwt.NewWithClaims jwt.SigningMethodHS256 (.map claims)).SignedString lib
            s.config.JWT.Secret).1 = (some token, none) ∧
        token.Claims = .map claims := by
  unfold Decodes at hcodec
  simp [authService.ValidateToken, jwt.Parse, jwt.Token.SignedString, jwt.NewWithClaims,
    jwt.SigningMethod.Sign, jwt.SigningMethodHS256, jwt.SigningMethod.Alg, hcodec,
    jwt.GetSigningMethod, authService.keyFunc, jwt.SigningMethod.Verify, hvalid]

/-- The expiry check on claims whose `exp` is the number `n`: zero is read as no expiry,
any other number is compared with the clock. -/
theorem verifyExpiresAt_num (claims : jwt.MapClaims) (now : Time) (n : Int)
    (h : claims.lookup "exp" = some (.num n)) :
    jwt.verifyExpiresAt claims now =
      if n = 0 then none
      else if now < Time.ofUnix n then none else some (.sentinel .jwtErrTokenExpired) := by
  unfold jwt.verifyExpiresAt jwt.MapClaims.parseNumericDate
  rw [h]
  by_cases hn : n = 0
  · simp [hn]
  · simp [hn, Time.Before]

/-- The claims `Login` issues are valid at every instant before the expiry they carry. -/
theorem Validate_loginClaims (ttl : Duration) (now₁ now₂ now : Time) (user : entity.User)
    (hfresh : now < Time.ofUnix (now₁.Add ttl).Unix) :
    jwt.Validate (loginClaims ttl now₁ now₂ user) now = none := by
  have hexp : jwt.verifyExpiresAt (loginClaims ttl now₁ now₂ user) now = none := by
    rw [verifyExpiresAt_num _ _ (now₁.Add ttl).Unix (by simp [loginClaims, List.lookup])]
    simp [hfresh]
  have hnbf : jwt.verifyNotBefore (loginClaims ttl now₁ now₂ user) now = none := by
    simp [jwt.verifyNotBefore, jwt.MapClaims.parseNumericDate, loginClaims, List.lookup]
  simp [jwt.Validate, hexp, hnbf]

/-- C2. For every (email, password, name) for which `entity.NewUser` succeeds and whose
record `FindByEmail` then returns, `Login(email, password)` succeeds, and `ValidateToken`
on the returned token, with the same secret and before the expiry, succeeds with claims
`sub` = the string of the user's ID, `email` = the user's Email and `role` = the user's
Role.  The password derivation is assumed to be accepted by the comparison, and the wire
codec to read back the issued token. -/
theorem Login_then_ValidateToken (lib : Lib) (s : authService) (salt : String)
    (id : uuid.UUID) (t₁ t₂ now₁ now₂ now : Time) (email password name : String)
    (user : entity.User)
    (hnew : entity.NewUser lib salt id t₁ t₂ email password name = (some user, none))
    (hfind : s.userRepo.FindByEmail email = (some user, none))
    (hbcrypt : BcryptSound lib)
    (hcodec : Decodes lib "HS256" (loginClaims s.config.JWT.ExpirationHours now₁ now₂ user)
      (lib.hmac .SHA256 s.config.JWT.Secret (lib.SigningString "HS256"
        (.map (loginClaims s.config.JWT.ExpirationHours now₁ now₂ user)))))
    (hfresh : now < Time.ofUnix (now₁.Add s.config.JWT.ExpirationHours).Unix) :
    ∃ tokenString token claims,
      s.Login lib now₁ now₂ email password = .ret tokenString none ∧
        s.ValidateToken lib now tokenString = (some token, none) ∧
        token.Claims = .map claims ∧
        claims.index "sub" = .str user.ID.String ∧
        claims.index "email" = .str user.Email ∧
        claims.index "role" = .str user.Role := by
  have hpw : user.ComparePassword lib password = none := by
    unfold entity.NewUser at hnew
    cases hgen : lib.GenerateFromPassword salt password bcrypt.DefaultCost with
    | error err => simp [hgen] at hnew
    | ok hashed =>
      simp [hgen] at hnew
      subst hnew
      exact hbcrypt salt password bcrypt.DefaultCost hashed hgen
  have hactive : user.Active = true := by
    unfold entity.NewUser at hnew
    cases hgen : lib.GenerateFromPassword salt password bcrypt.DefaultCost with
    | error err => simp [hgen] at hnew
    | ok hashed =>
      simp [hgen] at hnew
      subst hnew
      rfl
  obtain ⟨token, hval, hclaims⟩ := ValidateToken_issued lib s now _ hcodec
    (Validate_loginClaims s.config.JWT.ExpirationHours now₁ now₂ now user hfresh)
  refine ⟨_, token, loginClaims s.config.JWT.ExpirationHours now₁ now₂ user, ?_, hval,
    hclaims, ?_, ?_, ?_⟩
  · simp [authService.Login, hfind, hpw, hactive, jwt.Token.SignedString, jwt.NewWithClaims,
      jwt.SigningMethod.Sign, jwt.SigningMethodHS256]
  · simp [loginClaims, jwt.MapClaims.index, List.lookup]
  · simp [loginClaims, jwt.MapClaims.index, List.lookup]
  · simp [loginClaims, jwt.MapClaims.index, List.lookup]

/-- Witness of C2: alice is created with password `secret1`, stored, logs in at second 1000
and presents the token at once. -/
theorem Login_then_ValidateToken_witness :
    ∃ tokenString token claims,
      demo.svc.Login demo.lib demo.t₀ demo.t₀ "alice@x.com" "secret1"
          = .ret tokenString none ∧
        demo.svc.ValidateToken demo.lib demo.t₀ tokenString = (some token, none) ∧
        token.Claims = .map claims ∧
        claims.index "sub" = .str demo.alice.ID.String ∧
        claims.index "email" = .str demo.alice.Email ∧
        claims.index "role" = .str demo.alice.Role :=
  Login_then_ValidateToken demo.lib demo.svc "salt" ⟨"u-1"⟩ 0 0 demo.t₀ demo.t₀ demo.t₀
    "alice@x.com" "secret1" "Alice" demo.alice (by decide) (by decide)
    (by
      intro salt password cost hash h
      simp only [demo.lib, Except.ok.injEq] at h
      simp [demo.lib, h])
    (by unfold Decodes; decide) (by decide)

/-- C3. For every user found by `FindByEmail` whose password matches but whose `Active` flag
is false, `Login` returns the empty token and `errors.ErrUnauthorized`, which is not
`errors.ErrInvalidCredential`; no token is issued. -/
theorem Login_inactive (lib : Lib) (s : authService) (now₁ now₂ : Time)
    (email password : String) (user : entity.User)
    (hfind : s.userRepo.FindByEmail email = (some user, none))
    (hpw : user.ComparePassword lib password = none)
    (hinactive : user.Active = false) :
    s.Login lib now₁ now₂ email password = .ret "" (some errors.ErrUnauthorized) ∧
      errors.ErrUnauthorized ≠ errors.ErrInvalidCredential := by
  constructor
  · simp [authService.Login, hfind, hpw, hinactive]
  · decide

/-- Witness of C3: bob, switched off with `SetActive(false)`, logs in with his password. -/
theorem Login_inactive_witness :
    demo.svc.Login demo.lib demo.t₀ demo.t₀ "bob@x.com" "hunter2"
        = .ret "" (some errors.ErrUnauthorized) ∧
      errors.ErrUnauthorized ≠ errors.ErrInvalidCredential :=
  Login_inactive demo.lib demo.svc demo.t₀ demo.t₀ "bob@x.com" "hunter2" demo.bob
    (by decide) (by decide) (by decide)

end service

/-! ## Token validation -/

namespace service

/-- An error built by `newError` is never the variable `jwt.ErrTokenExpired` itself. -/
theorem newError_ne_ErrTokenExpired (err : Sentinel) (more : List Err) :
    jwt.newError err more ≠ jwt.ErrTokenExpired := by
  simp [jwt.newError, jwt.ErrTokenExpired]

/-- A token string that does not decode is an invalid token. -/
theorem ValidateToken_of_decode_none (lib : Lib) (s : authService) (now : Time)
    (tokenString : String) (hdec : lib.decode tokenString = none) :
    s.ValidateToken lib now tokenString = (none, some errors.ErrInvalidToken) := by
  simp [authService.ValidateToken, jwt.Parse, hdec, newError_ne_ErrTokenExpired]

/-- A token whose signature does not verify under the secret of the service is an invalid
token, whatever its claims and whatever the time. -/
theorem ValidateToken_of_not_verifies (lib : Lib) (s : authService) (now : Time)
    (tokenString : String) (seg : jwt.Segments) (hdec : lib.decode tokenString = some seg)
    (hsig : seg.verifies lib s.config.JWT.Secret = false) :
    s.ValidateToken lib now tokenString = (none, some errors.ErrInvalidToken) := by
  unfold jwt.Segments.verifies at hsig
  unfold authService.ValidateToken jwt.Parse
  simp only [hdec]
  cases hm : seg.alg.bind jwt.GetSigningMethod with
  | none => simp [newError_ne_ErrTokenExpired]
  | some method =>
    cases hs : seg.signature with
    | none => simp [newError_ne_ErrTokenExpired]
    | some sig =>
      simp only [hm, hs, Option.isNone_eq_false_iff, Option.isSome_iff_exists] at hsig
      obtain ⟨e, he⟩ := hsig
      cases method with
      | HMAC h => simp [authService.keyFunc, he, newError_ne_ErrTokenExpired]
      | asymmetric alg => simp [authService.keyFunc, newError_ne_ErrTokenExpired]
      | unsecured => simp [authService.keyFunc, newError_ne_ErrTokenExpired]

/-- A token whose claims the validator refuses is an invalid token. -/
theorem ValidateToken_of_invalid_claims (lib : Lib) (s : authService) (now : Time)
    (tokenString : String) (seg : jwt.Segments) (err : Err)
    (hdec : lib.decode tokenString = some seg)
    (hclaims : jwt.Validate seg.claims now = some err) :
    s.ValidateToken lib now tokenString = (none, some errors.ErrInvalidToken) := by
  unfold authService.ValidateToken jwt.Parse
  simp only [hdec]
  cases hm : seg.alg.bind jwt.GetSigningMethod with
  | none => simp [newError_ne_ErrTokenExpired]
  | some method =>
    cases hs : seg.signature with
    | none => simp [newError_ne_ErrTokenExpired]
    | some sig =>
      cases method with
      | HMAC h =>
        simp only [authService.keyFunc]
        cases hv : jwt.SigningMethod.Verify lib (.HMAC h) seg.signingString sig
            s.config.JWT.Secret with
        | none => simp [hclaims, newError_ne_ErrTokenExpired]
        | some e => simp [newError_ne_ErrTokenExpired]
      | asymmetric alg => simp [authService.keyFunc, newError_ne_ErrTokenExpired]
      | unsecured => simp [authService.keyFunc, newError_ne_ErrTokenExpired]

/-- A token that decodes, whose signature verifies under the secret of the service and whose
claims the validator accepts is returned, with the decoded claims. -/
theorem ValidateToken_of_valid (lib : Lib) (s : authService) (now : Time)
    (tokenString : String) (seg : jwt.Segments) (hdec : lib.decode tokenString = some seg)
    (hsig : seg.verifies lib s.config.JWT.Secret = true)
    (hclaims : jwt.Validate seg.claims now = none) :
    ∃ token, s.ValidateToken lib now tokenString = (some token, none) ∧
      token.Claims = .map seg.claims := by
  unfold jwt.Segments.verifies at hsig
  unfold authService.ValidateToken jwt.Parse
  simp only [hdec]
  cases hm : seg.alg.bind jwt.GetSigningMethod with
  | none => simp [hm] at hsig
  | some method =>
    cases hs : seg.signature with
    | none => simp [hm, hs] at hsig
    | some sig =>
      simp only [hm, hs, Option.isNone_iff_eq_none] at hsig
      cases method with
      | HMAC h => simp [authService.keyFunc, hsig, hclaims]
      | asymmetric alg => simp [jwt.SigningMethod.Verify] at hsig
      | unsecured => simp [jwt.SigningMethod.Verify] at hsig

/-- The two outcomes of `ValidateToken`: no token and `errors.ErrInvalidToken`, or a token
carrying a `MapClaims` and no error.  In particular `errors.ErrTokenExpired` is never
returned and a returned error never comes with a token. -/
theorem ValidateToken_outcomes (lib : Lib) (s : authService) (now : Time)
    (tokenString : String) :
    s.ValidateToken lib now tokenString = (none, some errors.ErrInvalidToken) ∨
      ∃ token claims, s.ValidateToken lib now tokenString = (some token, none) ∧
        token.Claims = .map claims := by
  cases hdec : lib.decode tokenString with
  | none => exact Or.inl (ValidateToken_of_decode_none lib s now tokenString hdec)
  | some seg =>
    cases hsig : seg.verifies lib s.config.JWT.Secret with
    | false => exact Or.inl (ValidateToken_of_not_verifies lib s now tokenString seg hdec hsig)
    | true =>
      cases hclaims : jwt.Validate seg.claims now with
      | some err =>
        exact Or.inl (ValidateToken_of_invalid_claims lib s now tokenString seg err hdec hclaims)
      | none =>
        obtain ⟨token, h, hc⟩ := ValidateToken_of_valid lib s now tokenString seg hdec hsig hclaims
        exact Or.inr ⟨token, seg.claims, h, hc⟩

/-- Claims whose `exp` is a number other than zero that the clock has reached are refused by
the validator. -/
theorem Validate_expired (claims : jwt.MapClaims) (now : Time) (e : Int)
    (hexp : claims.lookup "exp" = some (.num e)) (hne : e ≠ 0)
    (hpast : Time.ofUnix e ≤ now) :
    ∃ err, jwt.Validate claims now = some err := by
  have h : jwt.verifyExpiresAt claims now = some (.sentinel .jwtErrTokenExpired) := by
    rw [verifyExpiresAt_num claims now e hexp]
    simp [hne, not_lt.mpr hpast]
  simp [jwt.Validate, h]

/-- C4 (as amended). For every token issued by `Login` under the secret of `s` and every
service `s'` under whose secret the MAC of the signed text differs from the MAC under the
secret of `s`, `ValidateToken` of `s'` fails at every time (so whether or not the token is
also expired): it returns no token and `errors.ErrInvalidToken`.  Under a secret that
gives the same MAC on the signed text, `ValidateToken` of `s'` returns the token with its
claims whenever the claims are valid. -/
theorem ValidateToken_other_secret (lib : Lib) (s s' : authService) (now₁ now₂ : Time)
    (email password : String) (user : entity.User)
    (hfind : s.userRepo.FindByEmail email = (some user, none))
    (hpw : user.ComparePassword lib password = none)
    (hactive : user.Active = true)
    (hcodec : Decodes lib "HS256" (loginClaims s.config.JWT.ExpirationHours now₁ now₂ user)
      (lib.hmac .SHA256 s.config.JWT.Secret (lib.SigningString "HS256"
        (.map (loginClaims s.config.JWT.ExpirationHours now₁ now₂ user))))) :
    ∃ tokenString,
      s.Login lib now₁ now₂ email password = .ret tokenString none ∧
        (lib.hmac .SHA256 s'.config.JWT.Secret (lib.SigningString "HS256"
            (.map (loginClaims s.config.JWT.ExpirationHours now₁ now₂ user))) ≠
          lib.hmac .SHA256 s.config.JWT.Secret (lib.SigningString "HS256"
            (.map (loginClaims s.config.JWT.ExpirationHours now₁ now₂ user))) →
          ∀ now, s'.ValidateToken lib now tokenString
            = (none, some errors.ErrInvalidToken)) ∧
        (lib.hmac .SHA256 s'.config.JWT.Secret (lib.SigningString "HS256"
            (.map (loginClaims s.config.JWT.ExpirationHours now₁ now₂ user))) =
          lib.hmac .SHA256 s.config.JWT.Secret (lib.SigningString "HS256"
            (.map (loginClaims s.config.JWT.ExpirationHours now₁ now₂ user))) →
          ∀ now,
            jwt.Validate (loginClaims s.config.JWT.ExpirationHours now₁ now₂ user) now = none →
            ∃ token, s'.ValidateToken lib now tokenString = (some token, none) ∧
              token.Claims
                = .map (loginClaims s.config.JWT.ExpirationHours now₁ now₂ user)) := by
  refine ⟨lib.SigningString "HS256"
      (.map (loginClaims s.config.JWT.ExpirationHours now₁ now₂ user)) ++ "." ++
    lib.EncodeSegment (lib.hmac .SHA256 s.config.JWT.Secret (lib.SigningString "HS256"
      (.map (loginClaims s.config.JWT.ExpirationHours now₁ now₂ user)))), ?_, ?_, ?_⟩
  · simp [authService.Login, hfind, hpw, hactive, jwt.Token.SignedString,
      jwt.NewWithClaims, jwt.SigningMethod.Sign, jwt.SigningMethodHS256,
      jwt.SigningMethod.Alg]
  · intro hmac now
    refine ValidateToken_of_not_verifies lib s' now _ _ hcodec ?_
    simp [jwt.Segments.verifies, jwt.GetSigningMethod, jwt.SigningMethodHS256,
      jwt.SigningMethod.Verify, Ne.symm hmac]
  · intro hmac now hvalid
    refine ValidateToken_of_valid lib s' now _ _ hcodec ?_ hvalid
    simp [jwt.Segments.verifies, jwt.GetSigningMethod, jwt.SigningMethodHS256,
      jwt.SigningMethod.Verify, hmac]

/-- Witness of C4: alice's token, issued under `your-secret-key`, is presented to the service
configured with `another-key`, before and after its expiry, and refused; issued with the
MAC computed from the key block, it is presented at once to the service configured with
the secret followed by a zero byte, and returned. -/
theorem ValidateToken_other_secret_witness :
    (∀ now, demo.svcOther.ValidateToken demo.lib now demo.token₀
        = (none, some errors.ErrInvalidToken)) ∧
      ∃ token, demo.svcNul.ValidateToken demo.libPadded demo.t₀ demo.tokenPadded
          = (some token, none) ∧
        token.Claims = .map demo.claims₀ := by
  obtain ⟨tok, hlogin, hreject, _⟩ := ValidateToken_other_secret demo.lib demo.svc
    demo.svcOther demo.t₀ demo.t₀ "alice@x.com" "secret1" demo.alice (by decide) (by decide)
    (by decide) (by unfold Decodes; decide)
  obtain ⟨tok', hlogin', _, haccept⟩ := ValidateToken_other_secret demo.libPadded demo.svc
    demo.svcNul demo.t₀ demo.t₀ "alice@x.com" "secret1" demo.alice (by decide) (by decide)
    (by decide) (by unfold Decodes; decide)
  have h₀ : tok = demo.token₀ := by
    have h : demo.svc.Login demo.lib demo.t₀ demo.t₀ "alice@x.com" "secret1"
        = .ret demo.token₀ none := by decide
    rw [h] at hlogin
    exact (Result.ret.inj hlogin).1.symm
  have h₁ : tok' = demo.tokenPadded := by
    have h : demo.svc.Login demo.libPadded demo.t₀ demo.t₀ "alice@x.com" "secret1"
        = .ret demo.tokenPadded none := by decide
    rw [h] at hlogin'
    exact (Result.ret.inj hlogin').1.symm
  subst h₀
  subst h₁
  exact ⟨hreject (by decide), haccept (by decide) demo.t₀ (by decide)⟩

/-- Counterexample to C4 as stated: the MAC being computed from the key block, as
`crypto/hmac` computes it, the secret followed by one zero byte is a different secret with
the same key block; the token that `Login` issues to alice under `your-secret-key` is
accepted by `ValidateToken` of the service configured with that other secret, which
returns its claims. -/
theorem ValidateToken_padded_secret_accepted :
    demo.svcNul.config.JWT.Secret ≠ demo.svc.config.JWT.Secret ∧
      demo.svc.Login demo.libPadded demo.t₀ demo.t₀ "alice@x.com" "secret1"
        = .ret demo.tokenPadded none ∧
      (demo.svcNul.ValidateToken demo.libPadded demo.t₀ demo.tokenPadded).2 = none ∧
      (demo.svcNul.ValidateToken demo.libPadded demo.t₀ demo.tokenPadded).1.map
          (fun t => t.Claims) = some (.map demo.claims₀) := by
  decide

end service

/-! ## Token refresh -/

namespace service

/-- Whenever `ValidateToken` reports `errors.ErrInvalidToken`, `RefreshToken` returns the
empty string and that error. -/
theorem RefreshToken_of_invalid (lib : Lib) (s : authService) (now now₁ now₂ : Time)
    (tokenString : String)
    (h : s.ValidateToken lib now tokenString = (none, some errors.ErrInvalidToken)) :
    s.RefreshToken lib now now₁ now₂ tokenString = .ret "" (some errors.ErrInvalidToken) := by
  unfold authService.RefreshToken
  rw [h]
  simp [errors.ErrInvalidToken, errors.ErrTokenExpired]

/-- C6 (behaviour of the code). For every token that is validly signed with the configured
secret and whose `exp`, a number other than zero, has passed, `RefreshToken` returns the
empty string and `errors.ErrInvalidToken`: the expired token is not refreshed. -/
theorem RefreshToken_expired_refused (lib : Lib) (s : authService) (now now₁ now₂ : Time)
    (tokenString : String) (seg : jwt.Segments) (e : Int)
    (hdec : lib.decode tokenString = some seg)
    (_hsig : seg.verifies lib s.config.JWT.Secret = true)
    (hexp : seg.claims.lookup "exp" = some (.num e)) (hne : e ≠ 0)
    (hpast : Time.ofUnix e ≤ now) :
    s.RefreshToken lib now now₁ now₂ tokenString = .ret "" (some errors.ErrInvalidToken) := by
  obtain ⟨err, herr⟩ := Validate_expired seg.claims now e hexp hne hpast
  exact RefreshToken_of_invalid lib s now now₁ now₂ tokenString
    (ValidateToken_of_invalid_claims lib s now tokenString seg err hdec herr)

/-- Witness of C6: alice's token, issued at second 1000 for 24 hours, is handed to
`RefreshToken` at second 90000. -/
theorem RefreshToken_expired_refused_witness :
    demo.svc.RefreshToken demo.lib demo.tLate demo.tLate demo.tLate demo.token₀
      = .ret "" (some errors.ErrInvalidToken) :=
  RefreshToken_expired_refused demo.lib demo.svc demo.tLate demo.tLate demo.tLate
    demo.token₀ (demo.wire "HS256" demo.claims₀
      (demo.tag .SHA256 demo.secret (demo.signingString "HS256" (.map demo.claims₀)))).2
    87400 (by decide) (by decide) (by decide) (by decide) (by decide)

/-- C7. For every token string that does not decode (structurally malformed) and for every
token string whose signature does not verify under the configured secret, `RefreshToken`
returns the empty string together with an error, `errors.ErrInvalidToken`; it produces no
new token. -/
theorem RefreshToken_unverified_refused (lib : Lib) (s : authService) (now now₁ now₂ : Time)
    (tokenString : String)
    (h : lib.decode tokenString = none ∨
      ∃ seg, lib.decode tokenString = some seg ∧
        seg.verifies lib s.config.JWT.Secret = false) :
    s.RefreshToken lib now now₁ now₂ tokenString = .ret "" (some errors.ErrInvalidToken) := by
  rcases h with hdec | ⟨seg, hdec, hsig⟩
  · exact RefreshToken_of_invalid lib s now now₁ now₂ tokenString
      (ValidateToken_of_decode_none lib s now tokenString hdec)
  · exact RefreshToken_of_invalid lib s now now₁ now₂ tokenString
      (ValidateToken_of_not_verifies lib s now tokenString seg hdec hsig)

/-- Witness of C7: a string that is no token, and alice's token with the role rewritten to
`admin` under the old signature. -/
theorem RefreshToken_unverified_refused_witness :
    demo.svc.RefreshToken demo.lib demo.t₀ demo.t₀ demo.t₀ "not-a-token"
        = .ret "" (some errors.ErrInvalidToken) ∧
      demo.svc.RefreshToken demo.lib demo.t₀ demo.t₀ demo.t₀ demo.tokenForged
        = .ret "" (some errors.ErrInvalidToken) :=
  ⟨RefreshToken_unverified_refused demo.lib demo.svc demo.t₀ demo.t₀ demo.t₀ "not-a-token"
      (Or.inl (by decide)),
    RefreshToken_unverified_refused demo.lib demo.svc demo.t₀ demo.t₀ demo.t₀
      demo.tokenForged
      (Or.inr ⟨(demo.wire "HS256" demo.claimsForged
        (demo.tag .SHA256 demo.secret (demo.signingString "HS256" (.map demo.claims₀)))).2,
        by decide, by decide⟩)⟩

/-- C10 (behaviour of the code). For every token whose signature is valid under the
configured secret and whose `exp`, a number other than zero, has passed, `ValidateToken`
returns no token and `errors.ErrInvalidToken`, which is not `errors.ErrTokenExpired`: the
error of `jwt.Parse` wraps `jwt.ErrTokenExpired` and is not identical to it. -/
theorem ValidateToken_expired_reported_invalid (lib : Lib) (s : authService) (now : Time)
    (tokenString : String) (seg : jwt.Segments) (e : Int)
    (hdec : lib.decode tokenString = some seg)
    (_hsig : seg.verifies lib s.config.JWT.Secret = true)
    (hexp : seg.claims.lookup "exp" = some (.num e)) (hne : e ≠ 0)
    (hpast : Time.ofUnix e ≤ now) :
    s.ValidateToken lib now tokenString = (none, some errors.ErrInvalidToken) ∧
      errors.ErrInvalidToken ≠ errors.ErrTokenExpired := by
  obtain ⟨err, herr⟩ := Validate_expired seg.claims now e hexp hne hpast
  exact ⟨ValidateToken_of_invalid_claims lib s now tokenString seg err hdec herr, by decide⟩

/-- Witness of C10: alice's token, issued at second 1000 for 24 hours, is validated at
second 90000. -/
theorem ValidateToken_expired_reported_invalid_witness :
    demo.svc.ValidateToken demo.lib demo.tLate demo.token₀
        = (none, some errors.ErrInvalidToken) ∧
      errors.ErrInvalidToken ≠ errors.ErrTokenExpired :=
  ValidateToken_expired_reported_invalid demo.lib demo.svc demo.tLate demo.token₀
    (demo.wire "HS256" demo.claims₀
      (demo.tag .SHA256 demo.secret (demo.signingString "HS256" (.map demo.claims₀)))).2
    87400 (by decide) (by decide) (by decide) (by decide) (by decide)

end service

/-! ## The middleware -/

namespace middleware

open http

/-- A response written by `respondWithError` with status 401 is not the response of the
handler `demo.okHandler`. -/
theorem respondWithError_ne_ok (code : Nat) (err : Err) (hcode : code ≠ StatusOK)
    (r : Request) : respondWithError code err ≠ demo.okHandler r := by
  intro h
  have hs := congrArg Served.status h
  simp [respondWithError, demo.okHandler, Served.status] at hs
  exact hcode hs

/-- The response of `Authenticate` in each of its cases: 401 with `errors.ErrUnauthorized`
when no token is extracted, 401 with `errors.ErrInvalidToken` when `ValidateToken` refuses
the token, and the next handler on the request with the claims attached otherwise. -/
theorem Authenticate_cases (lib : Lib) (m : AuthMiddleware) (now : Time) (r : Request) :
    (extractToken r = "" ∧
        Denies (m.Authenticate lib now) r
          (respondWithError StatusUnauthorized errors.ErrUnauthorized)) ∨
      (extractToken r ≠ "" ∧
        m.authService.ValidateToken lib now (extractToken r)
          = (none, some errors.ErrInvalidToken) ∧
        Denies (m.Authenticate lib now) r
          (respondWithError StatusUnauthorized errors.ErrInvalidToken)) ∨
      (extractToken r ≠ "" ∧
        ∃ token claims,
          m.authService.ValidateToken lib now (extractToken r) = (some token, none) ∧
          token.Claims = .map claims ∧
          Invokes (m.Authenticate lib now) r
            (r.WithContext (r.Context.WithValue (.contextKey "claims") (.mapClaims claims)))) := by
  by_cases htok : extractToken r = ""
  · left
    refine ⟨htok, ?_⟩
    intro next
    simp [AuthMiddleware.Authenticate, htok]
  · right
    rcases service.ValidateToken_outcomes lib m.authService now (extractToken r) with
      h | ⟨token, claims, h, hc⟩
    · left
      refine ⟨htok, h, ?_⟩
      intro next
      simp [AuthMiddleware.Authenticate, htok, h]
    · right
      refine ⟨htok, token, claims, h, hc, ?_⟩
      intro next
      simp [AuthMiddleware.Authenticate, htok, h, hc, jwt.Claims.asMapClaims]

end middleware

namespace middleware

open http

/-- A middleware that answers a request itself, with a status other than 200, does not pass
the request on. -/
theorem not_Invokes_of_Denies (mw : Handler → Handler) (r r' : Request) (code : Nat)
    (err : Err) (hcode : code ≠ StatusOK) (hd : Denies mw r (respondWithError code err)) :
    ¬ Invokes mw r r' := by
  intro hi
  have h := (hd demo.okHandler).symm.trans (hi demo.okHandler)
  exact respondWithError_ne_ok code err hcode r' h

/-- C5 (as amended). For every request carrying a bearer token whose `exp` claim is a number
other than zero that the clock has reached, whether or not its signature is valid under the
configured secret, `Authenticate` responds with HTTP 401 and does not invoke the next
handler. -/
theorem Authenticate_expired_denied (lib : Lib) (m : AuthMiddleware) (now : Time)
    (r : Request) (seg : jwt.Segments) (e : Int)
    (htok : extractToken r ≠ "")
    (hdec : lib.decode (extractToken r) = some seg)
    (hexp : seg.claims.lookup "exp" = some (.num e)) (hne : e ≠ 0)
    (hpast : Time.ofUnix e ≤ now) :
    Denies (m.Authenticate lib now) r
        (respondWithError StatusUnauthorized errors.ErrInvalidToken) ∧
      (respondWithError StatusUnauthorized errors.ErrInvalidToken).status = some 401 ∧
      ∀ r', ¬ Invokes (m.Authenticate lib now) r r' := by
  obtain ⟨err, herr⟩ := service.Validate_expired seg.claims now e hexp hne hpast
  have hval := service.ValidateToken_of_invalid_claims lib m.authService now (extractToken r)
    seg err hdec herr
  have hd : Denies (m.Authenticate lib now) r
      (respondWithError StatusUnauthorized errors.ErrInvalidToken) := by
    intro next
    simp [AuthMiddleware.Authenticate, htok, hval]
  exact ⟨hd, rfl, fun r' => not_Invokes_of_Denies _ r r' _ _ (by decide) hd⟩

/-- Witness of C5: alice's token, expired at second 87400, is presented at second 90000. -/
theorem Authenticate_expired_denied_witness :
    Denies (demo.mw.Authenticate demo.lib demo.tLate)
        (demo.request ("Bearer " ++ demo.token₀))
        (respondWithError StatusUnauthorized errors.ErrInvalidToken) ∧
      (respondWithError StatusUnauthorized errors.ErrInvalidToken).status = some 401 ∧
      ∀ r', ¬ Invokes (demo.mw.Authenticate demo.lib demo.tLate)
        (demo.request ("Bearer " ++ demo.token₀)) r' :=
  Authenticate_expired_denied demo.lib demo.mw demo.tLate
    (demo.request ("Bearer " ++ demo.token₀))
    (demo.wire "HS256" demo.claims₀
      (demo.tag .SHA256 demo.secret (demo.signingString "HS256" (.map demo.claims₀)))).2
    87400 (by decide) (by decide) (by decide) (by decide) (by decide)

/-- Counterexample to C5 as stated: a token signed with the configured secret whose `exp`
claim is 0, the first second of 1970, presented at second 90000.  The expiry lies in the
past, yet `Authenticate` passes the request on to the next handler, which answers 200. -/
theorem Authenticate_expiry_zero_passes :
    (demo.lib.decode demo.tokenZero).map (fun seg => seg.claims.number "exp")
        = some (some 0) ∧
      Time.ofUnix 0 < demo.tLate ∧
      (demo.lib.decode demo.tokenZero).map
          (fun seg => seg.verifies demo.lib demo.mw.authService.config.JWT.Secret)
        = some true ∧
      middleware.extractToken (demo.request ("Bearer " ++ demo.tokenZero)) = demo.tokenZero ∧
      (demo.mw.Authenticate demo.lib demo.tLate demo.okHandler
          (demo.request ("Bearer " ++ demo.tokenZero))).status = some 200 ∧
      ¬ Denies (demo.mw.Authenticate demo.lib demo.tLate)
          (demo.request ("Bearer " ++ demo.tokenZero))
          (respondWithError StatusUnauthorized errors.ErrInvalidToken) := by
  refine ⟨by decide, by decide, by decide, by decide, by decide, ?_⟩
  intro hd
  have h := congrArg Served.status (hd demo.okHandler)
  revert h
  decide

/-- C9. For every request, `Authenticate` invokes the next handler if and only if a token is
extracted from the `Authorization` header and `ValidateToken` accepts it; in that case the
request handed on carries exactly the claims of that token under the context key
`claims`; in every other case the response is HTTP 401 and the next handler has no part
in it. -/
theorem Authenticate_invokes_iff (lib : Lib) (m : AuthMiddleware) (now : Time)
    (r : Request) :
    ((∃ r', Invokes (m.Authenticate lib now) r r') ↔
        (extractToken r ≠ "" ∧
          (m.authService.ValidateToken lib now (extractToken r)).2 = none)) ∧
      (∀ token, extractToken r ≠ "" →
        m.authService.ValidateToken lib now (extractToken r) = (some token, none) →
        ∃ claims, token.Claims = .map claims ∧
          Invokes (m.Authenticate lib now) r
            (r.WithContext (r.Context.WithValue (.contextKey "claims") (.mapClaims claims))) ∧
          asMapClaims ((r.WithContext (r.Context.WithValue (.contextKey "claims")
            (.mapClaims claims))).Context.Value (.contextKey "claims")) = some claims) ∧
      (¬ (extractToken r ≠ "" ∧
          (m.authService.ValidateToken lib now (extractToken r)).2 = none) →
        ∃ err, Denies (m.Authenticate lib now) r (respondWithError StatusUnauthorized err) ∧
          (respondWithError StatusUnauthorized err).status = some 401) := by
  rcases Authenticate_cases lib m now r with ⟨htok, hd⟩ | ⟨htok, hval, hd⟩ |
    ⟨htok, token, claims, hval, hc, hi⟩
  · refine ⟨⟨?_, ?_⟩, ?_, ?_⟩
    · rintro ⟨r', hi⟩
      exact absurd hi (not_Invokes_of_Denies _ r r' _ _ (by decide) hd)
    · rintro ⟨h, _⟩
      exact absurd htok h
    · intro token h
      exact absurd htok h
    · intro _
      exact ⟨_, hd, rfl⟩
  · refine ⟨⟨?_, ?_⟩, ?_, ?_⟩
    · rintro ⟨r', hi⟩
      exact absurd hi (not_Invokes_of_Denies _ r r' _ _ (by decide) hd)
    · rintro ⟨_, h⟩
      simp [hval] at h
    · intro token _ h
      simp [hval] at h
    · intro _
      exact ⟨_, hd, rfl⟩
  · refine ⟨⟨?_, ?_⟩, ?_, ?_⟩
    · intro _
      exact ⟨htok, by simp [hval]⟩
    · intro _
      exact ⟨_, hi⟩
    · intro token' _ h
      rw [hval] at h
      simp only [Prod.mk.injEq, Option.some.injEq, and_true] at h
      subst h
      refine ⟨claims, hc, hi, ?_⟩
      simp [Request.WithContext, Request.Context, Context.WithValue, Context.Value,
        List.lookup, asMapClaims]
    · intro h
      exact absurd ⟨htok, by simp [hval]⟩ h

/-- Witness of C9: with alice's token at second 1000 the next handler is invoked on a request
carrying her claims; with no `Authorization` header the response is 401. -/
theorem Authenticate_invokes_iff_witness :
    (∃ r', Invokes (demo.mw.Authenticate demo.lib demo.t₀)
        (demo.request ("Bearer " ++ demo.token₀)) r') ∧
      (∃ err, Denies (demo.mw.Authenticate demo.lib demo.t₀)
          { Header := [], ctx := [] } (respondWithError StatusUnauthorized err) ∧
        (respondWithError StatusUnauthorized err).status = some 401) :=
  ⟨(Authenticate_invokes_iff demo.lib demo.mw demo.t₀
      (demo.request ("Bearer " ++ demo.token₀))).1.mpr ⟨by decide, by decide⟩,
    (Authenticate_invokes_iff demo.lib demo.mw demo.t₀ { Header := [], ctx := [] }).2.2
      (by decide)⟩

/-- C8. For every expected role and every request, `RequireRole(role)` invokes the next
handler (on the request unchanged) if and only if claims are attached to the request
context and their `role` entry is a string equal to the expected role; with no claims
attached the response is 401 with `errors.ErrUnauthorized`; with claims attached whose
role is missing, not a string or a different string, the response is 403 with
`errors.ErrForbidden`. -/
theorem RequireRole_invokes_iff (m : AuthMiddleware) (role : String) (r : Request) :
    ((∃ r', Invokes (m.RequireRole role) r r') ↔
        ∃ claims, asMapClaims (r.Context.Value (.contextKey "claims")) = some claims ∧
          claims.index "role" = .str role) ∧
      (∀ claims, asMapClaims (r.Context.Value (.contextKey "claims")) = some claims →
        claims.index "role" = .str role → Invokes (m.RequireRole role) r r) ∧
      (asMapClaims (r.Context.Value (.contextKey "claims")) = none →
        Denies (m.RequireRole role) r
          (respondWithError StatusUnauthorized errors.ErrUnauthorized)) ∧
      (∀ claims, asMapClaims (r.Context.Value (.contextKey "claims")) = some claims →
        claims.index "role" ≠ .str role →
        Denies (m.RequireRole role) r (respondWithError StatusForbidden errors.ErrForbidden)) := by
  have hpass : ∀ claims,
      asMapClaims (r.Context.Value (.contextKey "claims")) = some claims →
      claims.index "role" = .str role → Invokes (m.RequireRole role) r r := by
    intro claims ha hr next
    simp [AuthMiddleware.RequireRole, ha, hr, jwt.ClaimValue.asString]
  have hnone : asMapClaims (r.Context.Value (.contextKey "claims")) = none →
      Denies (m.RequireRole role) r
        (respondWithError StatusUnauthorized errors.ErrUnauthorized) := by
    intro ha next
    simp [AuthMiddleware.RequireRole, ha]
  have hforbid : ∀ claims,
      asMapClaims (r.Context.Value (.contextKey "claims")) = some claims →
      claims.index "role" ≠ .str role →
      Denies (m.RequireRole role) r
        (respondWithError StatusForbidden errors.ErrForbidden) := by
    intro claims ha hr next
    cases hv : claims.index "role" with
    | str userRole =>
      have hne : userRole ≠ role := by
        intro h
        exact hr (by rw [hv, h])
      simp [AuthMiddleware.RequireRole, ha, hv, jwt.ClaimValue.asString, hne]
    | num n => simp [AuthMiddleware.RequireRole, ha, hv, jwt.ClaimValue.asString]
    | bool b => simp [AuthMiddleware.RequireRole, ha, hv, jwt.ClaimValue.asString]
    | null => simp [AuthMiddleware.RequireRole, ha, hv, jwt.ClaimValue.asString]
    | composite j => simp [AuthMiddleware.RequireRole, ha, hv, jwt.ClaimValue.asString]
  refine ⟨⟨?_, ?_⟩, hpass, hnone, hforbid⟩
  · rintro ⟨r', hi⟩
    cases ha : asMapClaims (r.Context.Value (.contextKey "claims")) with
    | none =>
      exact absurd hi (not_Invokes_of_Denies _ r r' _ _ (by decide) (hnone ha))
    | some claims =>
      by_cases hr : claims.index "role" = .str role
      · exact ⟨claims, rfl, hr⟩
      · exact absurd hi (not_Invokes_of_Denies _ r r' _ _ (by decide) (hforbid claims ha hr))
  · rintro ⟨claims, ha, hr⟩
    exact ⟨r, hpass claims ha hr⟩

/-- Witness of C8: `RequireRole("admin")` denies alice's claims (role `user`) with 403 and
`errors.ErrForbidden`, admits the same claims with role `admin`, and answers 401 when no
claims are attached. -/
theorem RequireRole_invokes_iff_witness :
    Denies (demo.mw.RequireRole "admin")
        { Header := [], ctx := [(.contextKey "claims", .mapClaims demo.claims₀)] }
        (respondWithError StatusForbidden errors.ErrForbidden) ∧
      Invokes (demo.mw.RequireRole "admin")
        { Header := [], ctx := [(.contextKey "claims", .mapClaims demo.claimsForged)] }
        { Header := [], ctx := [(.contextKey "claims", .mapClaims demo.claimsForged)] } ∧
      Denies (demo.mw.RequireRole "admin") { Header := [], ctx := [] }
        (respondWithError StatusUnauthorized errors.ErrUnauthorized) :=
  ⟨(RequireRole_invokes_iff demo.mw "admin"
      { Header := [], ctx := [(.contextKey "claims", .mapClaims demo.claims₀)] }).2.2.2
      demo.claims₀ (by decide) (by decide),
    (RequireRole_invokes_iff demo.mw "admin"
      { Header := [], ctx := [(.contextKey "claims", .mapClaims demo.claimsForged)] }).2.1
      demo.claimsForged (by decide) (by decide),
    (RequireRole_invokes_iff demo.mw "admin" { Header := [], ctx := [] }).2.2.1
      (by decide)⟩

end middleware

/-! ## The signing algorithm -/

namespace service

/-- Segments whose header names no HMAC method do not verify under any key. -/
theorem verifies_false_of_not_HMAC (lib : Lib) (seg : jwt.Segments) (key : String)
    (halg : ∀ h, seg.alg.bind jwt.GetSigningMethod ≠ some (.HMAC h)) :
    seg.verifies lib key = false := by
  unfold jwt.Segments.verifies
  cases hm : seg.alg.bind jwt.GetSigningMethod with
  | none => rfl
  | some method =>
    cases hs : seg.signature with
    | none => rfl
    | some sig =>
      cases method with
      | HMAC h => exact absurd hm (halg h)
      | asymmetric alg => simp [jwt.SigningMethod.Verify]
      | unsecured => simp [jwt.SigningMethod.Verify]

/-- C11 (as amended). For every token whose header declares no algorithm of the HMAC family
(`none`, `RS256`, any other registered or unregistered name, or no algorithm at all)
`ValidateToken` returns no token and `errors.ErrInvalidToken`, at every time; a token whose
header declares an HMAC algorithm, `HS256`, `HS384` or `HS512`, is returned with its claims
when its signature is the MAC of the signed text for the declared algorithm under the
configured secret and its claims are valid. -/
theorem ValidateToken_algorithm (lib : Lib) (s : authService) (now : Time)
    (tokenString : String) (seg : jwt.Segments)
    (hdec : lib.decode tokenString = some seg) :
    ((∀ h, seg.alg.bind jwt.GetSigningMethod ≠ some (.HMAC h)) →
        s.ValidateToken lib now tokenString = (none, some errors.ErrInvalidToken)) ∧
      (∀ h, seg.alg.bind jwt.GetSigningMethod = some (.HMAC h) →
        seg.signature = some (lib.hmac h s.config.JWT.Secret seg.signingString) →
        jwt.Validate seg.claims now = none →
        ∃ token, s.ValidateToken lib now tokenString = (some token, none) ∧
          token.Claims = .map seg.claims) := by
  constructor
  · intro halg
    exact ValidateToken_of_not_verifies lib s now tokenString seg hdec
      (verifies_false_of_not_HMAC lib seg s.config.JWT.Secret halg)
  · intro h hm hs hclaims
    refine ValidateToken_of_valid lib s now tokenString seg hdec ?_ hclaims
    simp [jwt.Segments.verifies, hm, hs, jwt.SigningMethod.Verify]

/-- Witness of C11: the token declaring `none` is refused, the token declaring `HS256` and
signed with the secret is returned. -/
theorem ValidateToken_algorithm_witness :
    demo.svc.ValidateToken demo.lib demo.t₀ demo.tokenNone
        = (none, some errors.ErrInvalidToken) ∧
      ∃ token, demo.svc.ValidateToken demo.lib demo.t₀ demo.token₀ = (some token, none) ∧
        token.Claims = .map demo.claims₀ :=
  ⟨(ValidateToken_algorithm demo.lib demo.svc demo.t₀ demo.tokenNone
      (demo.wire "none" demo.claims₀ "").2 (by decide)).1
      (by intro h; cases h <;> decide),
    (ValidateToken_algorithm demo.lib demo.svc demo.t₀ demo.token₀
      (demo.wire "HS256" demo.claims₀
        (demo.tag .SHA256 demo.secret (demo.signingString "HS256" (.map demo.claims₀)))).2
      (by decide)).2 .SHA256 (by decide) (by decide) (by decide)⟩

/-- Counterexample to C11 as stated: the token whose header declares `HS384`, not the `HS256`
used at issuance, and whose signature is the MAC for `HS384` under the configured secret,
is accepted by `ValidateToken`, which returns its claims. -/
theorem ValidateToken_HS384_accepted :
    (demo.lib.decode demo.tokenHS384).map (fun seg => seg.alg) = some (some "HS384") ∧
      jwt.SigningMethodHS256.Alg = "HS256" ∧
      (demo.svc.ValidateToken demo.lib demo.t₀ demo.tokenHS384).2 = none ∧
      (demo.svc.ValidateToken demo.lib demo.t₀ demo.tokenHS384).1.map (fun t => t.Claims)
        = some (.map demo.claims₀) := by
  decide

end service

/-! ## The user service -/

namespace service

/-- C12. For every existing user and every role string outside `admin` and `user`,
`UpdateRole` returns `errors.ErrInvalidRole`, leaves the record as it was fetched (its
`Role` and `UpdatedAt` included) and makes no call of the repository's `Update`; for the
role `admin` or `user` it sets the role on the record and hands that record to `Update`,
whose error it returns. -/
theorem UpdateRole_closed_set (s : userService) (now : Time) (id : uuid.UUID)
    (role : String) (user : entity.User)
    (hfind : s.userRepo.FindByID id = (some user, none)) :
    ((role ≠ "admin" ∧ role ≠ "user") →
        (s.UpdateRole now id role).result = .ret () (some errors.ErrInvalidRole) ∧
        (s.UpdateRole now id role).record = some user ∧
        (s.UpdateRole now id role).writes = []) ∧
      ((role = "admin" ∨ role = "user") →
        (s.UpdateRole now id role).result = .ret () (s.userRepo.Update (user.SetRole now role)) ∧
        (s.UpdateRole now id role).record = some (user.SetRole now role) ∧
        (user.SetRole now role).Role = role ∧
        (s.UpdateRole now id role).writes = [.Update (user.SetRole now role)]) := by
  constructor
  · rintro ⟨h₁, h₂⟩
    simp [userService.UpdateRole, hfind, h₁, h₂]
  · intro h
    simp [userService.UpdateRole, hfind, h, entity.User.SetRole]

/-- Witness of C12: alice's role is set to `root`, then to `admin`. -/
theorem UpdateRole_closed_set_witness :
    ((demo.users.UpdateRole 7 ⟨"u-1"⟩ "root").result = .ret () (some errors.ErrInvalidRole) ∧
        (demo.users.UpdateRole 7 ⟨"u-1"⟩ "root").record = some demo.alice ∧
        (demo.users.UpdateRole 7 ⟨"u-1"⟩ "root").writes = []) ∧
      ((demo.users.UpdateRole 7 ⟨"u-1"⟩ "admin").result
          = .ret () (demo.users.userRepo.Update (demo.alice.SetRole 7 "admin")) ∧
        (demo.users.UpdateRole 7 ⟨"u-1"⟩ "admin").record
          = some (demo.alice.SetRole 7 "admin") ∧
        (demo.alice.SetRole 7 "admin").Role = "admin" ∧
        (demo.users.UpdateRole 7 ⟨"u-1"⟩ "admin").writes
          = [.Update (demo.alice.SetRole 7 "admin")]) :=
  ⟨(UpdateRole_closed_set demo.users 7 ⟨"u-1"⟩ "root" demo.alice (by decide)).1
      ⟨by decide, by decide⟩,
    (UpdateRole_closed_set demo.users 7 ⟨"u-1"⟩ "admin" demo.alice (by decide)).2
      (Or.inl rfl)⟩

end service

/-! ## The identity record -/

namespace entity

/-- A record returned by `NewUser` is built from the arguments and the derived password. -/
theorem NewUser_eq (lib : Lib) (salt : String) (id : uuid.UUID) (now₁ now₂ : Time)
    (email password name hash : String)
    (hgen : lib.GenerateFromPassword salt password bcrypt.DefaultCost = .ok hash) :
    NewUser lib salt id now₁ now₂ email password name =
      (some { ID := id, Email := email, Password := hash, Name := name, Role := "user",
              Active := true, CreatedAt := now₁, UpdatedAt := now₂ }, none) := by
  simp [NewUser, hgen]

/-- C13 (as amended). The role of every record returned by `NewUser` is in the closed set
`user`, `admin`, and `Update`, `UpdatePassword` and `SetActive` keep it there for every
argument; `SetRole` performs no check: the record it leaves has its role in the closed set
exactly when the argument is in the closed set. -/
theorem ValidRole_preserved (lib : Lib) (salt : String) (now : Time) (u : User) :
    (∀ id now₁ now₂ email password name user,
        NewUser lib salt id now₁ now₂ email password name = (some user, none) →
        user.ValidRole) ∧
      (∀ name, u.ValidRole → (u.Update now name).ValidRole) ∧
      (∀ password, u.ValidRole → (u.UpdatePassword lib salt now password).1.ValidRole) ∧
      (∀ active, u.ValidRole → (u.SetActive now active).ValidRole) ∧
      (∀ role, (u.SetRole now role).ValidRole ↔ (role = "user" ∨ role = "admin")) := by
  refine ⟨?_, ?_, ?_, ?_, ?_⟩
  · intro id now₁ now₂ email password name user hnew
    unfold NewUser at hnew
    cases hgen : lib.GenerateFromPassword salt password bcrypt.DefaultCost with
    | error err => simp [hgen] at hnew
    | ok hashed =>
      simp [hgen] at hnew
      subst hnew
      exact Or.inl rfl
  · intro name h
    exact h
  · intro password h
    unfold User.UpdatePassword
    cases lib.GenerateFromPassword salt password bcrypt.DefaultCost with
    | error err => exact h
    | ok hashed => exact h
  · intro active h
    exact h
  · intro role
    exact Iff.rfl

/-- Witness of C13: the record of a new user, and that record after each operation. -/
theorem ValidRole_preserved_witness :
    demo.alice.ValidRole ∧
      (demo.alice.Update 9 "Alicia").ValidRole ∧
      (demo.alice.UpdatePassword demo.lib "salt" 9 "secret2").1.ValidRole ∧
      (demo.alice.SetActive 9 false).ValidRole ∧
      (demo.alice.SetRole 9 "admin").ValidRole :=
  ⟨(ValidRole_preserved demo.lib "salt" 9 demo.alice).1 ⟨"u-1"⟩ 0 0 "alice@x.com" "secret1"
      "Alice" demo.alice (by decide),
    (ValidRole_preserved demo.lib "salt" 9 demo.alice).2.1 "Alicia" (Or.inl (by decide)),
    (ValidRole_preserved demo.lib "salt" 9 demo.alice).2.2.1 "secret2" (Or.inl (by decide)),
    (ValidRole_preserved demo.lib "salt" 9 demo.alice).2.2.2.1 false (Or.inl (by decide)),
    ((ValidRole_preserved demo.lib "salt" 9 demo.alice).2.2.2.2 "admin").mpr (Or.inr rfl)⟩

/-- Counterexample to C13 as stated: `SetRole` with a value outside the closed set does not
reject it; alice's record, whose role was `user`, leaves the call with the role
`superuser`. -/
theorem SetRole_outside_closed_set :
    demo.alice.ValidRole ∧
      (demo.alice.SetRole 9 "superuser").Role = "superuser" ∧
      ¬ (demo.alice.SetRole 9 "superuser").ValidRole := by
  refine ⟨Or.inl (by decide), by decide, ?_⟩
  intro h
  rcases h with h | h
  · revert h
    decide
  · revert h
    decide

/-- C14. For every email, password and name for which the password derivation succeeds,
`NewUser` returns a record with the given email and name, role `user`, `Active` true,
`CreatedAt` and `UpdatedAt` set from the readings of the clock taken at the creation, the
identifier drawn, and a password proof that `ComparePassword` accepts for the given
password (the derivation being accepted by the comparison); when the derivation fails it
returns no record and the error of the derivation. -/
theorem NewUser_record (lib : Lib) (salt : String) (id : uuid.UUID) (now₁ now₂ : Time)
    (email password name : String) (hsound : BcryptSound lib) :
    (∀ hash, lib.GenerateFromPassword salt password bcrypt.DefaultCost = .ok hash →
        ∃ user, NewUser lib salt id now₁ now₂ email password name = (some user, none) ∧
          user.ID = id ∧ user.Email = email ∧ user.Name = name ∧ user.Role = "user" ∧
          user.Active = true ∧ user.CreatedAt = now₁ ∧ user.UpdatedAt = now₂ ∧
          user.Password = hash ∧ user.ComparePassword lib password = none) ∧
      (∀ err, lib.GenerateFromPassword salt password bcrypt.DefaultCost = .error err →
        NewUser lib salt id now₁ now₂ email password name = (none, some err)) := by
  constructor
  · intro hash hgen
    refine ⟨_, NewUser_eq lib salt id now₁ now₂ email password name hash hgen,
      rfl, rfl, rfl, rfl, rfl, rfl, rfl, rfl, ?_⟩
    exact hsound salt password bcrypt.DefaultCost hash hgen
  · intro err hgen
    simp [NewUser, hgen]

/-- The password derivation of the concrete instance is accepted by its comparison. -/
theorem demo_BcryptSound : BcryptSound demo.lib := by
  intro salt password cost hash h
  simp only [demo.lib, Except.ok.injEq] at h
  simp [demo.lib, h]

/-- Witness of C14: the record created for carol at the readings 3 and 4 of the clock. -/
theorem NewUser_record_witness :
    ∃ user, NewUser demo.lib "salt" ⟨"u-3"⟩ 3 4 "carol@x.com" "secret3" "Carol"
        = (some user, none) ∧
      user.ID = ⟨"u-3"⟩ ∧ user.Email = "carol@x.com" ∧ user.Name = "Carol" ∧
      user.Role = "user" ∧ user.Active = true ∧ user.CreatedAt = 3 ∧ user.UpdatedAt = 4 ∧
      user.Password = "$secret3" ∧ user.ComparePassword demo.lib "secret3" = none :=
  (NewUser_record demo.lib "salt" ⟨"u-3"⟩ 3 4 "carol@x.com" "secret3" "Carol"
    demo_BcryptSound).1 "$secret3" rfl

/-- C15. `Update(name)`, `SetRole(role)` and `SetActive(active)` each change their own field
(`Name`, `Role`, `Active`) and set `UpdatedAt` to the reading of the clock; `ID`, `Email`,
`Password`, `CreatedAt` and the other two fields are unchanged.  A successful
`UpdatePassword` changes `Password` (to the derived proof) and `UpdatedAt` and nothing
else. -/
theorem mutation_frame (lib : Lib) (salt : String) (now : Time) (u : User) :
    (∀ name, (u.Update now name).Name = name ∧ (u.Update now name).UpdatedAt = now ∧
        (u.Update now name).ID = u.ID ∧ (u.Update now name).Email = u.Email ∧
        (u.Update now name).Password = u.Password ∧ (u.Update now name).Role = u.Role ∧
        (u.Update now name).Active = u.Active ∧
        (u.Update now name).CreatedAt = u.CreatedAt) ∧
      (∀ role, (u.SetRole now role).Role = role ∧ (u.SetRole now role).UpdatedAt = now ∧
        (u.SetRole now role).ID = u.ID ∧ (u.SetRole now role).Email = u.Email ∧
        (u.SetRole now role).Password = u.Password ∧ (u.SetRole now role).Name = u.Name ∧
        (u.SetRole now role).Active = u.Active ∧
        (u.SetRole now role).CreatedAt = u.CreatedAt) ∧
      (∀ active, (u.SetActive now active).Active = active ∧
        (u.SetActive now active).UpdatedAt = now ∧
        (u.SetActive now active).ID = u.ID ∧ (u.SetActive now active).Email = u.Email ∧
        (u.SetActive now active).Password = u.Password ∧
        (u.SetActive now active).Name = u.Name ∧ (u.SetActive now active).Role = u.Role ∧
        (u.SetActive now active).CreatedAt = u.CreatedAt) ∧
      (∀ password hash,
        lib.GenerateFromPassword salt password bcrypt.DefaultCost = .ok hash →
        (u.UpdatePassword lib salt now password).2 = none ∧
        (u.UpdatePassword lib salt now password).1.Password = hash ∧
        (u.UpdatePassword lib salt now password).1.UpdatedAt = now ∧
        (u.UpdatePassword lib salt now password).1.ID = u.ID ∧
        (u.UpdatePassword lib salt now password).1.Email = u.Email ∧
        (u.UpdatePassword lib salt now password).1.Name = u.Name ∧
        (u.UpdatePassword lib salt now password).1.Role = u.Role ∧
        (u.UpdatePassword lib salt now password).1.Active = u.Active ∧
        (u.UpdatePassword lib salt now password).1.CreatedAt = u.CreatedAt) := by
  refine ⟨?_, ?_, ?_, ?_⟩
  · intro name
    exact ⟨rfl, rfl, rfl, rfl, rfl, rfl, rfl, rfl⟩
  · intro role
    exact ⟨rfl, rfl, rfl, rfl, rfl, rfl, rfl, rfl⟩
  · intro active
    exact ⟨rfl, rfl, rfl, rfl, rfl, rfl, rfl, rfl⟩
  · intro password hash hgen
    simp [User.UpdatePassword, hgen]

/-- Witness of C15: alice's password is changed to `secret2` at the reading 9 of the
clock. -/
theorem mutation_frame_witness :
    (demo.alice.UpdatePassword demo.lib "salt" 9 "secret2").2 = none ∧
      (demo.alice.UpdatePassword demo.lib "salt" 9 "secret2").1.Password = "$secret2" ∧
      (demo.alice.UpdatePassword demo.lib "salt" 9 "secret2").1.UpdatedAt = 9 ∧
      (demo.alice.UpdatePassword demo.lib "salt" 9 "secret2").1.ID = demo.alice.ID ∧
      (demo.alice.UpdatePassword demo.lib "salt" 9 "secret2").1.Email = demo.alice.Email ∧
      (demo.alice.UpdatePassword demo.lib "salt" 9 "secret2").1.Name = demo.alice.Name ∧
      (demo.alice.UpdatePassword demo.lib "salt" 9 "secret2").1.Role = demo.alice.Role ∧
      (demo.alice.UpdatePassword demo.lib "salt" 9 "secret2").1.Active = demo.alice.Active ∧
      (demo.alice.UpdatePassword demo.lib "salt" 9 "secret2").1.CreatedAt
        = demo.alice.CreatedAt :=
  (mutation_frame demo.lib "salt" 9 demo.alice).2.2.2 "secret2" "$secret2" rfl

end entity

namespace service

/-- C16. For every email, `userService.Create` returns no user and
`errors.ErrUserAlreadyExists`, without a call of the repository's `Create`, whenever
`FindByEmail` answers without an error for that email; when the lookup fails and the
derivation and the save succeed, it returns a user whose `Email` and `Name` are the
arguments, after one call of the repository's `Create` with that user. -/
theorem Create_existing_or_new (lib : Lib) (s : userService) (salt : String)
    (id : uuid.UUID) (now₁ now₂ : Time) (email password name : String) :
    ((s.userRepo.FindByEmail email).2 = none →
        (s.Create lib salt id now₁ now₂ email password name).result
          = .ret none (some errors.ErrUserAlreadyExists) ∧
        (s.Create lib salt id now₁ now₂ email password name).writes = []) ∧
      (∀ found err hash,
        s.userRepo.FindByEmail email = (found, some err) →
        lib.GenerateFromPassword salt password bcrypt.DefaultCost = .ok hash →
        s.userRepo.Create
            { ID := id, Email := email, Password := hash, Name := name, Role := "user",
              Active := true, CreatedAt := now₁, UpdatedAt := now₂ } = none →
        ∃ user,
          (s.Create lib salt id now₁ now₂ email password name).result
            = .ret (some user) none ∧
          user.Email = email ∧ user.Name = name ∧
          (s.Create lib salt id now₁ now₂ email password name).writes = [.Create user]) := by
  constructor
  · intro h
    cases hf : s.userRepo.FindByEmail email with
    | mk found err =>
      rw [hf] at h
      simp only at h
      subst h
      simp [userService.Create, hf]
  · intro found err hash hf hgen hsave
    refine ⟨{ ID := id, Email := email, Password := hash, Name := name, Role := "user",
              Active := true, CreatedAt := now₁, UpdatedAt := now₂ }, ?_, rfl, rfl, ?_⟩
    · simp [userService.Create, hf, entity.NewUser_eq lib salt id now₁ now₂ email password
        name hash hgen, hsave]
    · simp [userService.Create, hf, entity.NewUser_eq lib salt id now₁ now₂ email password
        name hash hgen, hsave]

end service

namespace service

/-- Witness of C16: an account is created for carol, whose email is not in the store, and
one is asked for alice's email, which is. -/
theorem Create_existing_or_new_witness :
    ((demo.users.Create demo.lib "salt" ⟨"u-3"⟩ 3 4 "alice@x.com" "secret3" "Carol").result
          = .ret none (some errors.ErrUserAlreadyExists) ∧
        (demo.users.Create demo.lib "salt" ⟨"u-3"⟩ 3 4 "alice@x.com" "secret3" "Carol").writes
          = []) ∧
      ∃ user,
        (demo.users.Create demo.lib "salt" ⟨"u-3"⟩ 3 4 "carol@x.com" "secret3" "Carol").result
          = .ret (some user) none ∧
        user.Email = "carol@x.com" ∧ user.Name = "Carol" ∧
        (demo.users.Create demo.lib "salt" ⟨"u-3"⟩ 3 4 "carol@x.com" "secret3" "Carol").writes
          = [.Create user] :=
  ⟨(Create_existing_or_new demo.lib demo.users "salt" ⟨"u-3"⟩ 3 4 "alice@x.com" "secret3"
      "Carol").1 (by decide),
    (Create_existing_or_new demo.lib demo.users "salt" ⟨"u-3"⟩ 3 4 "carol@x.com" "secret3"
      "Carol").2 none errors.ErrUserNotFound "$secret3" (by decide) rfl (by decide)⟩

end service

/-! ## The handlers -/

namespace handler

open http

/-- C17. The JSON encoding of an identity record does not depend on the password proof: for
two records that differ only in `Password`, `json.Marshal` yields the same object, whose
members are `id`, `email`, `name`, `role`, `active`, `created_at` and `updated_at`;
`respondWithJSON` writes the same response for both, and so does `GetUser` when the
repository holds the one or the other. -/
theorem User_json_without_password (u : entity.User) (p : String) :
    json.Marshal ({ u with Password := p }).fields = json.Marshal u.fields ∧
      (json.Marshal u.fields).map Prod.fst
        = ["id", "email", "name", "role", "active", "created_at", "updated_at"] ∧
      (∀ code, respondWithJSON code (.user (some { u with Password := p }))
        = respondWithJSON code (.user (some u))) ∧
      (∀ (b : Boundary) (h h' : UserHandler) (r : Request) (id : uuid.UUID),
        b.ParseUUID (URLParam r "id") = some id →
        h.userService.GetByID id = (some u, none) →
        h'.userService.GetByID id = (some { u with Password := p }, none) →
        h'.GetUser b r = h.GetUser b r) := by
  have hm : json.Marshal ({ u with Password := p }).fields = json.Marshal u.fields := by
    simp [json.Marshal, entity.User.fields, List.filter]
  refine ⟨hm, ?_, ?_, ?_⟩
  · simp [json.Marshal, entity.User.fields, List.filter]
  · intro code
    simp [respondWithJSON, Payload.Marshal, hm]
  · intro b h h' r id hid hu hu'
    simp [UserHandler.GetUser, hid, hu, hu', respondWithJSON, Payload.Marshal, hm]

/-- Witness of C17: `GetUser` for alice, from the store and from a store in which her
password proof is another one. -/
theorem User_json_without_password_witness :
    UserHandler.GetUser demo.boundary
        { userService := { userRepo := { demo.repo with
            FindByID := fun _ => (some { demo.alice with Password := "$other" }, none) } } }
        { Header := [], ctx := [], URLParams := [("id", "u-1")] }
      = demo.userHandler.GetUser demo.boundary
        { Header := [], ctx := [], URLParams := [("id", "u-1")] } :=
  (User_json_without_password demo.alice "$other").2.2.2 demo.boundary demo.userHandler
    { userService := { userRepo := { demo.repo with
        FindByID := fun _ => (some { demo.alice with Password := "$other" }, none) } } }
    { Header := [], ctx := [], URLParams := [("id", "u-1")] } ⟨"u-1"⟩
    (by decide) (by decide) (by decide)

/-- C18 (behaviour of the code). When the body of the request decodes and validates and
`authService.Login` denies with `errors.ErrUnauthorized`, the handler `AuthHandler.Login`
responds with status 500 and the message of `errors.ErrInternalServer`, not with 401 and
`errors.ErrUnauthorized`. -/
theorem Login_handler_unauthorized_is_500 (lib : Lib) (b : Boundary) (h : AuthHandler)
    (now₁ now₂ : Time) (r : Request) (req : LoginRequest)
    (hdec : b.DecodeLoginRequest r.Body = some req)
    (hvalid : req.valid b = true)
    (hlogin : h.authService.Login lib now₁ now₂ req.Email req.Password
      = .ret "" (some errors.ErrUnauthorized)) :
    h.Login lib b now₁ now₂ r
        = respondWithError StatusInternalServerError errors.ErrInternalServer ∧
      (h.Login lib b now₁ now₂ r).status = some 500 ∧
      h.Login lib b now₁ now₂ r ≠ respondWithError StatusUnauthorized errors.ErrUnauthorized := by
  have hr : h.Login lib b now₁ now₂ r
      = respondWithError StatusInternalServerError errors.ErrInternalServer := by
    have hne : errors.ErrUnauthorized ≠ errors.ErrInvalidCredential := by decide
    simp [AuthHandler.Login, hdec, hvalid, hlogin, hne]
  refine ⟨hr, ?_, ?_⟩
  · rw [hr]
    rfl
  · rw [hr]
    decide

/-- Witness of C18: bob, whose account is switched off, posts his email and his password. -/
theorem Login_handler_unauthorized_is_500_witness :
    demo.authHandler.Login demo.lib demo.boundary demo.t₀ demo.t₀
        (demo.loginRequest "bob@x.com hunter2")
        = respondWithError StatusInternalServerError errors.ErrInternalServer ∧
      (demo.authHandler.Login demo.lib demo.boundary demo.t₀ demo.t₀
        (demo.loginRequest "bob@x.com hunter2")).status = some 500 ∧
      demo.authHandler.Login demo.lib demo.boundary demo.t₀ demo.t₀
        (demo.loginRequest "bob@x.com hunter2")
        ≠ respondWithError StatusUnauthorized errors.ErrUnauthorized :=
  Login_handler_unauthorized_is_500 demo.lib demo.boundary demo.authHandler demo.t₀ demo.t₀
    (demo.loginRequest "bob@x.com hunter2") { Email := "bob@x.com", Password := "hunter2" }
    (by decide) (by decide) (by decide)

end handler

namespace service

/-- In the service as it is composed, `RefreshToken` returns on every token string: the
empty string with `errors.ErrInvalidToken`, or a token without an error. -/
theorem RefreshToken_returns (lib : Lib) (s : authService) (now now₁ now₂ : Time)
    (tokenString : String) :
    s.RefreshToken lib now now₁ now₂ tokenString = .ret "" (some errors.ErrInvalidToken) ∨
      ∃ newToken, s.RefreshToken lib now now₁ now₂ tokenString = .ret newToken none := by
  rcases ValidateToken_outcomes lib s now tokenString with h | ⟨token, claims, h, hc⟩
  · exact Or.inl (RefreshToken_of_invalid lib s now now₁ now₂ tokenString h)
  · right
    unfold authService.RefreshToken
    rw [h]
    simp [hc, jwt.Claims.asMapClaims, jwt.Token.SignedString, jwt.NewWithClaims,
      jwt.SigningMethod.Sign, jwt.SigningMethodHS256]

/-- C19. `RefreshToken` is total: for every token string, `ValidateToken` returns either no
token with `errors.ErrInvalidToken`, and then `RefreshToken` returns the empty string with
that error, or a token with its claims and no error, and then `RefreshToken` returns a new
token; it never stops in a nil dereference, and `ValidateToken` never returns the nil token
with `errors.ErrTokenExpired` that would pass the guard of `RefreshToken`. -/
theorem RefreshToken_total (lib : Lib) (s : authService) (now now₁ now₂ : Time)
    (tokenString : String) :
    ((s.ValidateToken lib now tokenString = (none, some errors.ErrInvalidToken) ∧
          s.RefreshToken lib now now₁ now₂ tokenString
            = .ret "" (some errors.ErrInvalidToken)) ∨
        (∃ token claims newToken,
          s.ValidateToken lib now tokenString = (some token, none) ∧
          token.Claims = .map claims ∧
          s.RefreshToken lib now now₁ now₂ tokenString = .ret newToken none)) ∧
      s.RefreshToken lib now now₁ now₂ tokenString ≠ .nilDeref ∧
      s.ValidateToken lib now tokenString ≠ (none, some errors.ErrTokenExpired) := by
  rcases ValidateToken_outcomes lib s now tokenString with h | ⟨token, claims, h, hc⟩
  · have hr := RefreshToken_of_invalid lib s now now₁ now₂ tokenString h
    refine ⟨Or.inl ⟨h, hr⟩, ?_, ?_⟩
    · rw [hr]
      exact fun e => Result.noConfusion e
    · rw [h]
      decide
  · have hr : s.RefreshToken lib now now₁ now₂ tokenString
        = .ret (lib.SigningString "HS256"
            (.map (refreshClaims s.config.JWT.ExpirationHours now₁ now₂ claims)) ++ "." ++
          lib.EncodeSegment (lib.hmac .SHA256 s.config.JWT.Secret (lib.SigningString "HS256"
            (.map (refreshClaims s.config.JWT.ExpirationHours now₁ now₂ claims))))) none := by
      unfold authService.RefreshToken
      rw [h]
      simp [hc, jwt.Claims.asMapClaims, jwt.Token.SignedString, jwt.NewWithClaims,
        jwt.SigningMethod.Sign, jwt.SigningMethodHS256, jwt.SigningMethod.Alg]
    refine ⟨Or.inr ⟨token, claims, _, h, hc, hr⟩, ?_, ?_⟩
    · rw [hr]
      exact fun e => Result.noConfusion e
    · rw [h]
      exact fun e => by simp at e

/-- Concrete runs of C19: alice's token is refreshed at once, then after its expiry, then a
string that is no token; no run stops in a nil dereference. -/
theorem RefreshToken_total_witness :
    demo.svc.RefreshToken demo.lib demo.t₀ demo.t₀ demo.t₀ demo.token₀ ≠ .nilDeref ∧
      demo.svc.RefreshToken demo.lib demo.tLate demo.tLate demo.tLate demo.token₀
        ≠ .nilDeref ∧
      demo.svc.RefreshToken demo.lib demo.t₀ demo.t₀ demo.t₀ "not-a-token" ≠ .nilDeref :=
  ⟨(RefreshToken_total demo.lib demo.svc demo.t₀ demo.t₀ demo.t₀ demo.token₀).2.1,
    (RefreshToken_total demo.lib demo.svc demo.tLate demo.tLate demo.tLate demo.token₀).2.1,
    (RefreshToken_total demo.lib demo.svc demo.t₀ demo.t₀ demo.t₀ "not-a-token").2.1⟩

end service

/-! ## The bearer token in the header -/

namespace strings

/-- A list without the separator is one part. -/
theorem splitChars_of_not_mem (sep : Char) (cs : List Char) (h : sep ∉ cs) :
    splitChars sep cs = [cs] := by
  induction cs with
  | nil => rfl
  | cons c cs ih =>
    have hc : c ≠ sep := fun e => h (by simp [e])
    have hcs : sep ∉ cs := fun e => h (by simp [e])
    simp [splitChars, hc, ih hcs]

/-- Up to the first separator is the first part. -/
theorem splitChars_append_sep (sep : Char) (a b : List Char) (h : sep ∉ a) :
    splitChars sep (a ++ sep :: b) = a :: splitChars sep b := by
  induction a with
  | nil => simp [splitChars]
  | cons c a ih =>
    have hc : c ≠ sep := fun e => h (by simp [e])
    have ha : sep ∉ a := fun e => h (by simp [e])
    simp [splitChars, hc, ih ha]

/-- There is one part more than there are separators. -/
theorem length_splitChars (sep : Char) (cs : List Char) :
    (splitChars sep cs).length = cs.count sep + 1 := by
  induction cs with
  | nil => rfl
  | cons c cs ih =>
    by_cases hc : c = sep
    · subst hc
      simp [splitChars, ih]
    · have hcount : (c :: cs).count sep = cs.count sep := by
        simp [List.count_cons, hc]
      cases hs : splitChars sep cs with
      | nil => simp [hs] at ih
      | cons p ps =>
        rw [hs] at ih
        simp only [splitChars, hc, if_false, hs, hcount]
        simpa using ih

/-- The number of parts of `Split` is the number of separators plus one. -/
theorem length_Split (s : String) (sep : Char) :
    (Split s sep).length = s.toList.count sep + 1 := by
  simp [Split, length_splitChars]

/-- Splitting `a`, a separator and `b`, where neither `a` nor `b` holds the separator,
gives the two parts `a` and `b`. -/
theorem Split_two (a b : String) (sep : Char) (ha : sep ∉ a.toList) (hb : sep ∉ b.toList) :
    Split (a ++ String.singleton sep ++ b) sep = [a, b] := by
  have hl : (a ++ String.singleton sep ++ b).toList = a.toList ++ sep :: b.toList := by
    simp [String.toList, String.singleton]
  unfold Split
  rw [hl, splitChars_append_sep sep _ _ ha, splitChars_of_not_mem sep _ hb]
  rfl

end strings

namespace middleware

open http

/-- The token of a list of parts that does not have exactly two elements is empty. -/
theorem second_of_two_eq_empty (parts : List String) :
    parts.length ≠ 2 →
      (match parts with
        | [_, t] => t
        | _ => "") = "" := by
  intro h
  match parts, h with
  | [], _ => rfl
  | [_], _ => rfl
  | [_, _], h => exact absurd rfl h
  | _ :: _ :: _ :: _, _ => rfl

/-- C20. For every request, with `h` the value of its `Authorization` header: when `h` is a
scheme word, one space and a word `t` (neither holding a space), `extractToken` returns
`t`, whatever the scheme word is; when `h` does not hold exactly one space (none, more
than one, or the empty header), it returns the empty string; and the copy in the handler
package returns the same as the copy in the middleware package. -/
theorem extractToken_two_parts (r : Request) :
    (∀ scheme t : String, ' ' ∉ scheme.toList → ' ' ∉ t.toList →
        r.HeaderGet "Authorization" = scheme ++ " " ++ t → extractToken r = t) ∧
      ((r.HeaderGet "Authorization").toList.count ' ' ≠ 1 → extractToken r = "") ∧
      handler.extractToken r = extractToken r := by
  refine ⟨?_, ?_, rfl⟩
  · intro scheme t hs ht hh
    have h2 := strings.Split_two scheme t ' ' hs ht
    have hsp : String.singleton ' ' = " " := rfl
    rw [hsp] at h2
    simp [extractToken, hh, h2]
  · intro hcount
    have hlen : (strings.Split (r.HeaderGet "Authorization") ' ').length ≠ 2 := by
      rw [strings.length_Split]
      omega
    simp only [extractToken]
    exact second_of_two_eq_empty _ hlen

/-- Witness of C20: a bearer header, a header with another scheme word, a header with two
spaces, a header without a space and no header at all. -/
theorem extractToken_two_parts_witness :
    extractToken (demo.request "Bearer abc") = "abc" ∧
      extractToken (demo.request "Basic abc") = "abc" ∧
      extractToken (demo.request "Bearer  abc") = "" ∧
      extractToken (demo.request "abc") = "" ∧
      extractToken { Header := [], ctx := [] } = "" :=
  ⟨(extractToken_two_parts (demo.request "Bearer abc")).1 "Bearer" "abc"
      (by decide) (by decide) (by decide),
    (extractToken_two_parts (demo.request "Basic abc")).1 "Basic" "abc"
      (by decide) (by decide) (by decide),
    (extractToken_two_parts (demo.request "Bearer  abc")).2.1 (by decide),
    (extractToken_two_parts (demo.request "abc")).2.1 (by decide),
    (extractToken_two_parts { Header := [], ctx := [] }).2.1 (by decide)⟩

end middleware

/-! ## Changing the password -/

namespace service

/-- C21. For every existing user and every old password that `ComparePassword` rejects,
`ChangePassword` returns `errors.ErrInvalidPassword`, leaves the record as it was fetched
(its password proof and `UpdatedAt` included) and makes no call of the repository's
`Update`; a call of `Update` is made only when the old password matches and the new
derivation succeeds, and then with the record carrying the new proof and the new
`UpdatedAt`, the error of `Update` being returned. -/
theorem ChangePassword_old_password (lib : Lib) (s : userService) (salt : String)
    (now : Time) (id : uuid.UUID) (oldPassword newPassword : String) (user : entity.User)
    (hfind : s.userRepo.FindByID id = (some user, none)) :
    (∀ e, user.ComparePassword lib oldPassword = some e →
        (s.ChangePassword lib salt now id oldPassword newPassword).result
          = .ret () (some errors.ErrInvalidPassword) ∧
        (s.ChangePassword lib salt now id oldPassword newPassword).record = some user ∧
        (s.ChangePassword lib salt now id oldPassword newPassword).writes = []) ∧
      ((s.ChangePassword lib salt now id oldPassword newPassword).writes ≠ [] →
        user.ComparePassword lib oldPassword = none ∧
        ∃ hash, lib.GenerateFromPassword salt newPassword bcrypt.DefaultCost = .ok hash) ∧
      (∀ hash, user.ComparePassword lib oldPassword = none →
        lib.GenerateFromPassword salt newPassword bcrypt.DefaultCost = .ok hash →
        (s.ChangePassword lib salt now id oldPassword newPassword).result
          = .ret () (s.userRepo.Update { user with Password := hash, UpdatedAt := now }) ∧
        (s.ChangePassword lib salt now id oldPassword newPassword).record
          = some { user with Password := hash, UpdatedAt := now } ∧
        (s.ChangePassword lib salt now id oldPassword newPassword).writes
          = [.Update { user with Password := hash, UpdatedAt := now }]) := by
  refine ⟨?_, ?_, ?_⟩
  · intro e hpw
    simp [userService.ChangePassword, hfind, hpw]
  · intro hw
    cases hpw : user.ComparePassword lib oldPassword with
    | some e => simp [userService.ChangePassword, hfind, hpw] at hw
    | none =>
      cases hgen : lib.GenerateFromPassword salt newPassword bcrypt.DefaultCost with
      | error err =>
        simp [userService.ChangePassword, hfind, hpw, entity.User.UpdatePassword, hgen] at hw
      | ok hash => exact ⟨rfl, hash, rfl⟩
  · intro hash hpw hgen
    simp [userService.ChangePassword, hfind, hpw, entity.User.UpdatePassword, hgen]

/-- Witness of C21: alice's password is changed with a wrong old password, then with the
right one. -/
theorem ChangePassword_old_password_witness :
    ((demo.users.ChangePassword demo.lib "salt" 9 ⟨"u-1"⟩ "wrong" "secret2").result
          = .ret () (some errors.ErrInvalidPassword) ∧
        (demo.users.ChangePassword demo.lib "salt" 9 ⟨"u-1"⟩ "wrong" "secret2").record
          = some demo.alice ∧
        (demo.users.ChangePassword demo.lib "salt" 9 ⟨"u-1"⟩ "wrong" "secret2").writes = []) ∧
      ((demo.users.ChangePassword demo.lib "salt" 9 ⟨"u-1"⟩ "secret1" "secret2").result
          = .ret () (demo.users.userRepo.Update
              { demo.alice with Password := "$secret2", UpdatedAt := 9 }) ∧
        (demo.users.ChangePassword demo.lib "salt" 9 ⟨"u-1"⟩ "secret1" "secret2").record
          = some { demo.alice with Password := "$secret2", UpdatedAt := 9 } ∧
        (demo.users.ChangePassword demo.lib "salt" 9 ⟨"u-1"⟩ "secret1" "secret2").writes
          = [.Update { demo.alice with Password := "$secret2", UpdatedAt := 9 }]) :=
  ⟨(ChangePassword_old_password demo.lib demo.users "salt" 9 ⟨"u-1"⟩ "wrong" "secret2"
      demo.alice (by decide)).1 (.other "mismatch") (by decide),
    (ChangePassword_old_password demo.lib demo.users "salt" 9 ⟨"u-1"⟩ "secret1" "secret2"
      demo.alice (by decide)).2.2 "$secret2" (by decide) rfl⟩

end service

/-! ## The `Access-Control-Max-Age` header -/

namespace strconv

/-- The digits produced never get fewer than the digits already there. -/
theorem length_le_toDigitsCore (b : Nat) :
    ∀ (f n : Nat) (ds : List Char), ds.length ≤ (Nat.toDigitsCore b f n ds).length := by
  intro f
  induction f with
  | zero =>
    intro n ds
    simp [Nat.toDigitsCore]
  | succ f ih =>
    intro n ds
    simp only [Nat.toDigitsCore]
    split
    · simp
    · exact Nat.le_trans (by simp) (ih (n / b) (Nat.digitChar (n % b) :: ds))

/-- One step of the production of digits. -/
theorem toDigitsCore_succ (b f n : Nat) (ds : List Char) :
    Nat.toDigitsCore b (f + 1) n ds =
      if n / b = 0 then Nat.digitChar (n % b) :: ds
      else Nat.toDigitsCore b f (n / b) (Nat.digitChar (n % b) :: ds) := by
  simp only [Nat.toDigitsCore]

/-- A number from ten on has at least two decimal digits. -/
theorem two_le_length_repr (n : Nat) (h : 10 ≤ n) : 2 ≤ (Nat.repr n).length := by
  obtain ⟨j, rfl⟩ : ∃ j, n = j + 1 := ⟨n - 1, by omega⟩
  have h₁ : (j + 1) / 10 ≠ 0 := by omega
  have e : Nat.toDigits 10 (j + 1) =
      Nat.toDigitsCore 10 (j + 1) ((j + 1) / 10) [Nat.digitChar ((j + 1) % 10)] := by
    rw [Nat.toDigits, toDigitsCore_succ 10 (j + 1), if_neg h₁]
  simp only [Nat.repr, List.asString, String.length, e]
  rw [toDigitsCore_succ 10 j]
  split
  · simp
  · exact Nat.le_trans (by simp) (length_le_toDigitsCore 10 j _ _)

/-- The decimal representation of an integer from ten on has at least two characters. -/
theorem two_le_length_Itoa (n : Int) (h : 10 ≤ n) : 2 ≤ (Itoa n).length := by
  obtain ⟨m, rfl⟩ : ∃ m : Nat, n = (m : Int) := ⟨n.toNat, by omega⟩
  have hm : 10 ≤ m := by omega
  exact two_le_length_repr m hm

end strconv

namespace builtin

/-- The conversion `string(n)` yields one character. -/
theorem length_string (n : Int) : (string n).length = 1 := by
  unfold string
  split <;> rfl

/-- The conversion `string(n)` of a positive integer is never its decimal representation. -/
theorem string_ne_Itoa (n : Int) (h : 0 < n) : string n ≠ strconv.Itoa n := by
  intro heq
  by_cases h10 : 10 ≤ n
  · have h₁ := length_string n
    have h₂ := strconv.two_le_length_Itoa n h10
    rw [heq] at h₁
    omega
  · have hcases : n = 1 ∨ n = 2 ∨ n = 3 ∨ n = 4 ∨ n = 5 ∨ n = 6 ∨ n = 7 ∨ n = 8 ∨ n = 9 := by
      omega
    rcases hcases with h | h | h | h | h | h | h | h | h <;> subst h <;> revert heq <;> decide

end builtin

namespace http

/-- After `Set`, `Get` under the same name yields the value set. -/
theorem HeaderMap.Get_Set (h : HeaderMap) (key value : String) :
    (h.Set key value).Get key = value := by
  have hl : ∀ l : HeaderMap,
      List.lookup key ((l.filter fun kv => kv.1 ≠ key) ++ [(key, value)]) = some value := by
    intro l
    induction l with
    | nil => simp [List.lookup]
    | cons kv l ih =>
      cases kv with
      | mk a b =>
        by_cases hk : a = key
        · have hf : List.filter (fun kv : String × String => decide (kv.1 ≠ key)) ((a, b) :: l)
              = List.filter (fun kv : String × String => decide (kv.1 ≠ key)) l := by
            rw [List.filter_cons]
            simp [hk]
          rw [hf]
          exact ih
        · have hne : (key == a) = false := by
            simp only [beq_eq_false_iff_ne, ne_eq]
            exact fun e => hk e.symm
          have hf : List.filter (fun kv : String × String => decide (kv.1 ≠ key)) ((a, b) :: l)
              = (a, b) :: List.filter (fun kv : String × String => decide (kv.1 ≠ key)) l := by
            rw [List.filter_cons]
            simp [hk]
          rw [hf, List.cons_append, List.lookup, hne]
          exact ih
  unfold HeaderMap.Set HeaderMap.Get
  rw [hl]
  rfl

end http

namespace middleware

open http

/-- C22 (behaviour of the code). For every request whose origin is allowed and every
configuration with `Cors.MaxAge > 0`, the header `Access-Control-Max-Age` that `Cors`
sets is `string(MaxAge)`, the one character with code point `MaxAge`, on the header map,
on the answer to a preflight request and on the response of a next handler that sets no
header; that value is never the decimal representation of `MaxAge`. -/
theorem Cors_max_age_is_one_character (m : CorsMiddleware) (r : Request)
    (hallowed : m.allowed (r.HeaderGet "Origin") = true)
    (hpos : 0 < m.config.Cors.MaxAge) :
    (m.setHeaders (r.HeaderGet "Origin") []).Get "Access-Control-Max-Age"
        = builtin.string m.config.Cors.MaxAge ∧
      (r.Method = MethodOptions → ∀ next,
        (m.Cors next r).Header.Get "Access-Control-Max-Age"
          = builtin.string m.config.Cors.MaxAge) ∧
      (∀ next resp, r.Method ≠ MethodOptions → next r = .response resp → resp.Header = [] →
        (m.Cors next r).Header.Get "Access-Control-Max-Age"
          = builtin.string m.config.Cors.MaxAge) ∧
      (builtin.string m.config.Cors.MaxAge).length = 1 ∧
      builtin.string m.config.Cors.MaxAge ≠ strconv.Itoa m.config.Cors.MaxAge := by
  have hset : (m.setHeaders (r.HeaderGet "Origin") []).Get "Access-Control-Max-Age"
      = builtin.string m.config.Cors.MaxAge := by
    simp only [CorsMiddleware.setHeaders, hallowed, if_true, hpos]
    exact HeaderMap.Get_Set _ _ _
  refine ⟨hset, ?_, ?_, builtin.length_string _, builtin.string_ne_Itoa _ hpos⟩
  · intro hm next
    simp only [CorsMiddleware.Cors, hm, if_true, Served.Header]
    exact hset
  · intro next resp hm hnext hh
    simp only [CorsMiddleware.Cors, hm, if_false, hnext, hh, List.foldl, Served.Header]
    exact hset

/-- Witness of C22: with the configuration of `Load`, whose `MaxAge` is 300, a preflight
request and a `GET` request from an origin get the header `Access-Control-Max-Age` with
the one character of code point 300, which is not the string `300`. -/
theorem Cors_max_age_is_one_character_witness :
    (demo.cors.Cors demo.okHandler (demo.preflight "https://a.example")).Header.Get
        "Access-Control-Max-Age" = builtin.string 300 ∧
      (demo.cors.Cors demo.okHandler (demo.get "https://a.example")).Header.Get
        "Access-Control-Max-Age" = builtin.string 300 ∧
      (builtin.string 300).length = 1 ∧
      builtin.string 300 ≠ strconv.Itoa 300 ∧
      strconv.Itoa 300 = "300" :=
  ⟨(Cors_max_age_is_one_character demo.cors (demo.preflight "https://a.example")
      (by decide) (by decide)).2.1 rfl demo.okHandler,
    (Cors_max_age_is_one_character demo.cors (demo.get "https://a.example")
      (by decide) (by decide)).2.2.1 demo.okHandler _ (by decide) rfl rfl,
    (Cors_max_age_is_one_character demo.cors (demo.get "https://a.example")
      (by decide) (by decide)).2.2.2.1,
    (Cors_max_age_is_one_character demo.cors (demo.get "https://a.example")
      (by decide) (by decide)).2.2.2.2,
    by decide⟩

end middleware
